import Mathlib

set_option maxHeartbeats 1000000

/-!
Shallow embedding of the TauriHands agent kernel (src/src-tauri/src/services/):
the run-state data model and kernel operations (kernel.rs), the dangerous-command
guard (tools.rs), the judge-rule aggregation (judge.rs), the pseudo-terminal
marker protocol (pty.rs), the workspace sandbox (workspace.rs), and the action
parser (kernel.rs).  Strings are modelled as Lean strings; where the Rust code
indexes byte positions we work over `List Char`, which coincides with the byte
semantics on the ASCII data the claims are about.  Rust `u32`/`usize` counters
are modelled as `Nat` (`saturating_add 1` on a `u32` is `+ 1` far below the
overflow bound), `i32` exit codes as `Int` with the `i32` range check where the
code parses them, and the filesystem underneath the sandbox as an explicit set
of existing (symlink-free) normalized paths.
-/

namespace TauriHands

/-- Substring containment mirroring Rust `str::contains` on a pattern string. -/
def strContains (hay pat : String) : Bool :=
  (List.range (hay.data.length + 1)).any (fun i => pat.data.isPrefixOf (hay.data.drop i))

/-- Rust `str::trim` on a character list. -/
def trimCharsL (l : List Char) : List Char :=
  ((l.dropWhile Char.isWhitespace).reverse.dropWhile Char.isWhitespace).reverse

/-- Rust `str::trim` (kernel-computable replacement for `String.trim`). -/
def strTrim (s : String) : String :=
  String.mk (trimCharsL s.data)

/-- Rust `str::to_lowercase`, restricted to the ASCII mapping (the inputs the
claims are about are unaffected by the difference). -/
def strToLower (s : String) : String :=
  String.mk (s.data.map Char.toLower)

/-- Splitting on whitespace, keeping empty pieces (as `String.split` does);
Rust `split_whitespace` is this followed by dropping the empty pieces, which
the caller in kernel.rs performs via its non-empty filter. -/
def splitWsGo : List Char → List Char → List String
  | [], acc => [String.mk acc.reverse]
  | c :: rest, acc =>
    if c.isWhitespace then String.mk acc.reverse :: splitWsGo rest []
    else splitWsGo rest (c :: acc)

/-- Whitespace split of a string. -/
def strSplitWs (s : String) : List String :=
  splitWsGo s.data []

/-- Replace the first list element satisfying `p` using `f`, mirroring
`iter_mut().find(...)` followed by a mutation in Rust. -/
def updateFirst (p : α → Bool) (f : α → α) : List α → List α
  | [] => []
  | x :: xs => if p x then f x :: xs else x :: updateFirst p f xs

/-! ## JSON values (serde_json::Value) -/

/-- JSON values as the kernel's parser consumes them.  Numbers are modelled as
integers: the parser only stringifies them (`coerce_string`). -/
inductive Json where
  | null : Json
  | bool (b : Bool) : Json
  | num (n : Int) : Json
  | str (s : String) : Json
  | arr (items : List Json) : Json
  | obj (fields : List (String × Json)) : Json

/-- Field lookup on a JSON object (`serde_json::Map::get`). -/
def jGet (j : Json) (key : String) : Option Json :=
  match j with
  | .obj fields => (fields.find? (fun kv => kv.1 == key)).map (fun kv => kv.2)
  | _ => none

/-- Rust `Value::as_str`. -/
def jAsStr : Option Json → Option String
  | some (.str s) => some s
  | _ => none

/-- Rust `Value::as_bool`. -/
def jAsBool : Option Json → Option Bool
  | some (.bool b) => some b
  | _ => none

/-- kernel.rs `coerce_string`: strings are trimmed, numbers and booleans are
stringified, everything else is `None`. -/
def coerceString : Option Json → Option String
  | some (.str text) => some (strTrim text)
  | some (.num n) => some (toString n)
  | some (.bool flag) => some (toString flag)
  | _ => none

/-! ## Run-state data model (kernel.rs) -/

/-- kernel.rs `RunAgentState`. -/
inductive RunAgentState where
  | Idle | Running | Paused | AwaitingUser | Error | Finished
deriving DecidableEq

/-- kernel.rs `ChatMessage`. -/
structure ChatMessage where
  role : String
  content : String
deriving DecidableEq

/-- kernel.rs `ToolContext`; the environment map is modelled as an association
list. -/
structure ToolContext where
  cwd : String
  env : List (String × String)
  session_id : Option String
deriving DecidableEq

/-- kernel.rs `Budget`. -/
structure Budget where
  max_steps : Nat
  used_steps : Nat
deriving DecidableEq

/-- kernel.rs `PlanStep`. -/
structure PlanStep where
  id : String
  title : String
  status : String
  done : Bool
deriving DecidableEq

/-- kernel.rs `Plan`. -/
structure Plan where
  version : Nat
  goal : String
  steps : List PlanStep
deriving DecidableEq

/-- kernel.rs `Task`. -/
structure Task where
  id : String
  title : String
  status : String
  notes : Option String
deriving DecidableEq

/-- kernel.rs `TaskList`. -/
structure TaskList where
  version : Nat
  items : List Task
deriving DecidableEq

/-- kernel.rs `RunState`. -/
structure RunState where
  run_id : String
  agent_state : RunAgentState
  turn : Nat
  messages : List ChatMessage
  tool_context : ToolContext
  task_id : Option String
  plan : Option Plan
  tasks : Option TaskList
  budget : Budget
  recent_observations : List String
  auto_run : Bool
  last_error : Option String
deriving DecidableEq

/-- kernel.rs `RunState::new`. -/
def RunState.init (runId cwd : String) : RunState where
  run_id := runId
  agent_state := .Idle
  turn := 0
  messages := []
  tool_context := { cwd := cwd, env := [], session_id := none }
  task_id := none
  plan := none
  tasks := none
  budget := { max_steps := 8, used_steps := 0 }
  recent_observations := []
  auto_run := true
  last_error := none

/-- kernel.rs `Action`. -/
inductive Action where
  | TerminalExec (id : String) (cmd : String) (cwd : Option String)
  | TerminalRun (id : String) (program : String) (args : List String) (cwd : Option String)
  | FsRead (id : String) (path : String)
  | FsWrite (id : String) (path : String) (content : String)
  | FsSearch (id : String) (pattern : String) (paths : Option (List String))
  | GitStatus (id : String)
  | GitDiff (id : String) (path : Option String)
  | TestsRun (id : String) (program : String) (args : List String)
  | PlanUpdate (id : String) (plan : Plan)
  | TaskUpdate (id : String) (tasks : TaskList)
  | UserAsk (id : String) (question : String)
deriving DecidableEq

/-- kernel.rs `action_id`. -/
def actionIdOf : Action → String
  | .TerminalExec id _ _ => id
  | .TerminalRun id _ _ _ => id
  | .FsRead id _ => id
  | .FsWrite id _ _ => id
  | .FsSearch id _ _ => id
  | .GitStatus id => id
  | .GitDiff id _ => id
  | .TestsRun id _ _ => id
  | .PlanUpdate id _ => id
  | .TaskUpdate id _ => id
  | .UserAsk id _ => id

/-- kernel.rs `Observation`. -/
structure Observation where
  ok : Bool
  summary : String
  exit_code : Option Int
  artifacts : Option Json
  raw : Option Json
  requires_user : Bool

/-! ## Dangerous-command guard (tools.rs) -/

/-- tools.rs `is_dangerous_command`: the deny-list, in source order. -/
def dangerPatterns : List String :=
  ["rm -rf /", "rm -rf --no-preserve-root /", "del /s", "rd /s /q", "format",
   "shutdown", "reboot", "poweroff", "mkfs", "reg delete"]

/-- tools.rs `is_dangerous_command`: the joined, lowercased command line that
the deny-list is matched against. -/
def joinedCommand (program : String) (args : List String) : String :=
  if args.isEmpty then strToLower program
  else strToLower program ++ " " ++ strToLower (String.intercalate " " args)

/-- tools.rs `is_dangerous_command`. -/
def isDangerousCommand (program : String) (args : List String) : Option String :=
  (dangerPatterns.find? (fun pat => strContains (joinedCommand program args) pat)).map
    (fun pat => "Blocked dangerous command pattern: " ++ pat)

/-- The externally visible step a kernel dispatch takes before (or instead of)
producing an observation: rejection by the guard, spawning an external
process (`std::process::Command` in tools.rs `run_command`), writing the
command block to a pseudo-terminal (pty.rs `exec_interactive`), a workspace
resolution failure, or a pure in-process file/search/state operation. -/
inductive DispatchEffect where
  | rejected (reason : String)
  | spawned (program : String) (args : List String)
  | ptyWrite (cmd : String)
  | resolveError (msg : String)
  | fsOp
deriving DecidableEq

/-- tools.rs `run_command`, up to the point where the external process is
spawned: the deny-list check happens first and rejects before any spawn. -/
def runCommandRoute (program : String) (args : List String) : DispatchEffect :=
  match isDangerousCommand program args with
  | some reason => .rejected reason
  | none => .spawned program args

/-- kernel.rs `Runtime::execute`, reduced to the effect each action variant
dispatches: which guard runs, and what reaches a shell.  `resolve` stands for
`WorkspaceState::resolve_path` on the action's path argument. -/
def execRoute (resolve : String → Except String String) : Action → DispatchEffect
  | .TerminalExec _ cmd cwd =>
    match cwd with
    | some p =>
      match resolve p with
      | .error e => .resolveError e
      | .ok _ => .ptyWrite cmd
    | none => .ptyWrite cmd
  | .TerminalRun _ program args cwd =>
    match cwd with
    | some p =>
      match resolve p with
      | .error e => .resolveError e
      | .ok _ => runCommandRoute program args
    | none => runCommandRoute program args
  | .FsRead _ _ => .fsOp
  | .FsSearch _ _ _ => .fsOp
  | .TestsRun _ program args => runCommandRoute program args
  | .GitStatus _ =>
    runCommandRoute "git" ["status", "--porcelain=v1", "--untracked-files=all"]
  | .GitDiff _ path =>
    match path with
    | some p =>
      match resolve p with
      | .error e => .resolveError e
      | .ok rp => runCommandRoute "git" ["diff", "--", rp]
    | none => runCommandRoute "git" ["diff"]
  | .FsWrite _ _ _ => .fsOp
  | .PlanUpdate _ _ => .fsOp
  | .TaskUpdate _ _ => .fsOp
  | .UserAsk _ _ => .fsOp

/-! ## Judge-rule aggregation (judge.rs) -/

/-- judge.rs `JudgeRule`. -/
structure JudgeRule where
  id : String
  rule_type : String
  command : Option (List String)
  success_match : Option String
  fail_match : Option String
deriving DecidableEq

/-- judge.rs `JudgeContext`. -/
structure JudgeContext where
  iteration : Nat
  last_error : Option String
deriving DecidableEq

/-- judge.rs `JudgeCheck`. -/
structure JudgeCheck where
  id : String
  rule_type : String
  status : String
  reason : Option String
  evidence : List String
deriving DecidableEq

/-- judge.rs `JudgeRuleOutcome`. -/
structure JudgeRuleOutcome where
  status : String
  reason : Option String
  evidence : List String
deriving DecidableEq

/-- judge.rs `JudgeResult`. -/
structure JudgeResult where
  status : String
  reasons : List String
  evidence : List String
  checks : List JudgeCheck
deriving DecidableEq

/-- The mutable accumulators of the rule loop in judge.rs `evaluate_rules`. -/
structure JudgeAcc where
  checks : List JudgeCheck
  reasons : List String
  evidence : List String
  sawPass : Bool
  sawFail : Bool
  sawPending : Bool
  sawSkip : Bool
deriving DecidableEq

/-- One iteration of the rule loop in judge.rs `evaluate_rules`. -/
def judgeStep (ctx : JudgeContext) (exec : JudgeRule → JudgeContext → JudgeRuleOutcome)
    (acc : JudgeAcc) (rule : JudgeRule) : JudgeAcc :=
  let outcome := exec rule ctx
  let status := outcome.status
  let acc :=
    if status = "pass" then { acc with sawPass := true }
    else if status = "fail" ∨ status = "error" then { acc with sawFail := true }
    else if status = "pending" then { acc with sawPending := true }
    else if status = "skip" then { acc with sawSkip := true }
    else { acc with sawPending := true }
  let acc :=
    match outcome.reason with
    | some reason =>
      if status = "fail" ∨ status = "error" then
        { acc with reasons := acc.reasons ++ [reason] }
      else acc
    | none => acc
  let acc := { acc with evidence := acc.evidence ++ outcome.evidence }
  { acc with
    checks := acc.checks ++ [{ id := rule.id, rule_type := rule.rule_type,
                               status := status, reason := outcome.reason,
                               evidence := outcome.evidence }] }

/-- judge.rs `JudgeEngine::evaluate_rules`. -/
def evaluateRules (rules : List JudgeRule) (ctx : JudgeContext)
    (exec : JudgeRule → JudgeContext → JudgeRuleOutcome) : JudgeResult :=
  if rules.isEmpty then
    { status := "skip", reasons := [], evidence := [], checks := [] }
  else
    let acc := rules.foldl (judgeStep ctx exec)
      { checks := [], reasons := [], evidence := [],
        sawPass := false, sawFail := false, sawPending := false, sawSkip := false }
    let status :=
      if acc.sawFail then "fail"
      else if acc.sawPending then "pending"
      else if acc.sawPass then "pass"
      else if acc.sawSkip then "skip"
      else "pending"
    let reasons :=
      if status ≠ "pass" then
        match ctx.last_error with
        | some error =>
          if acc.reasons.contains error then acc.reasons else acc.reasons ++ [error]
        | none => acc.reasons
      else acc.reasons
    { status := status, reasons := reasons, evidence := acc.evidence,
      checks := acc.checks }

/-! ## Interactive-shell marker protocol (pty.rs) -/

/-- Scanner state for the ANSI-handling loops in pty.rs
(`sanitize_terminal_output` and `is_marker_line_start`): an escape byte has
just been consumed, or a CSI sequence body is being consumed. -/
inductive ScanMode where
  | normal | afterEsc | inCsi
deriving DecidableEq

/-- pty.rs `sanitize_terminal_output` as a character-at-a-time state machine:
ANSI escape sequences (`ESC [` up to the final byte in `0x40..=0x7e`, or `ESC`
plus one character otherwise), bell characters and carriage returns are
dropped. -/
def sanitizeGo : ScanMode → List Char → List Char
  | _, [] => []
  | .normal, c :: rest =>
    if c = '\x1b' then sanitizeGo .afterEsc rest
    else if c = '\x07' then sanitizeGo .normal rest
    else if c = '\r' then sanitizeGo .normal rest
    else c :: sanitizeGo .normal rest
  | .afterEsc, c :: rest =>
    if c = '[' then sanitizeGo .inCsi rest
    else sanitizeGo .normal rest
  | .inCsi, c :: rest =>
    if 0x40 ≤ c.toNat ∧ c.toNat ≤ 0x7e then sanitizeGo .normal rest
    else sanitizeGo .inCsi rest

/-- pty.rs `sanitize_terminal_output`. -/
def sanitizeOutput (l : List Char) : List Char :=
  sanitizeGo .normal l

/-- pty.rs `is_marker_line_start`, scanning the characters of the line before
the marker: blanks, tabs, carriage returns and ANSI-CSI sequences may precede
the marker, anything else disqualifies the occurrence.  In the `afterEsc`
state only the escape byte has been consumed, so a non-`[` character is
re-examined by the outer loop (here: the inlined normal-state tests). -/
def markerIndentGo : ScanMode → List Char → Bool
  | _, [] => true
  | .normal, c :: rest =>
    if c = ' ' ∨ c = '\t' ∨ c = '\r' then markerIndentGo .normal rest
    else if c = '\x1b' then markerIndentGo .afterEsc rest
    else false
  | .afterEsc, c :: rest =>
    if c = '[' then markerIndentGo .inCsi rest
    else if c = ' ' ∨ c = '\t' ∨ c = '\r' then markerIndentGo .normal rest
    else if c = '\x1b' then markerIndentGo .afterEsc rest
    else false
  | .inCsi, c :: rest =>
    if 0x40 ≤ c.toNat ∧ c.toNat ≤ 0x7e then markerIndentGo .normal rest
    else markerIndentGo .inCsi rest

/-- pty.rs `is_marker_line_start`, over the line segment before the
candidate marker position. -/
def scanMarkerIndent (l : List Char) : Bool :=
  markerIndentGo .normal l

/-- The characters of the line holding position `idx`, up to `idx` (computed
in pty.rs `is_marker_line_start` via `rfind` for the previous newline). -/
def lineSegmentBefore (raw : List Char) (idx : Nat) : List Char :=
  ((raw.take idx).reverse.takeWhile (fun c => c ≠ '\n')).reverse

/-- pty.rs `is_marker_line_start`. -/
def isMarkerLineStart (raw : List Char) (idx : Nat) : Bool :=
  scanMarkerIndent (lineSegmentBefore raw idx)

/-- Position of the first occurrence of `pat` in `hay` at or after `start`
(Rust `raw[cursor..].find(pat)`, shifted to an absolute index). -/
def findSubFrom (hay pat : List Char) (start : Nat) : Option Nat :=
  (List.range (hay.length + 1)).find?
    (fun i => decide (start ≤ i) && pat.isPrefixOf (hay.drop i))

/-- The loop of pty.rs `find_marker_line_from`: find the next occurrence,
accept it when it is anchored at a line start, otherwise continue after it.
The fuel bounds the iterations; `raw.length + 1` suffices for any nonempty
marker because the cursor strictly increases. -/
def findMarkerLineLoop (raw marker : List Char) : Nat → Nat → Option Nat
  | 0, _ => none
  | fuel + 1, cursor =>
    match findSubFrom raw marker cursor with
    | none => none
    | some idx =>
      if isMarkerLineStart raw idx then some idx
      else findMarkerLineLoop raw marker fuel (idx + marker.length)

/-- pty.rs `find_marker_line_from`. -/
def findMarkerLineFrom (raw marker : List Char) (start : Nat) : Option Nat :=
  findMarkerLineLoop raw marker (raw.length + 1) start

/-- The digit-collection loop of pty.rs `parse_exit_code`: an optional leading
minus sign, then ASCII digits, stopping at the first other character. -/
def collectIntChars : List Char → List Char → List Char
  | [], buf => buf
  | c :: rest, buf =>
    if c = '-' ∧ buf = [] then collectIntChars rest (buf ++ [c])
    else if c.isDigit then collectIntChars rest (buf ++ [c])
    else buf

/-- Numeric value of a list of ASCII digits. -/
def digitsToNat (digits : List Char) : Nat :=
  digits.foldl (fun acc c => acc * 10 + (c.toNat - '0'.toNat)) 0

/-- pty.rs `parse_exit_code`, including the `i32` range check performed by
Rust `str::parse::<i32>`. -/
def parseExitCode (value : List Char) : Option Int :=
  let cleaned := sanitizeOutput value
  let trimmed := cleaned.dropWhile (fun c => c.isWhitespace)
  let buf := collectIntChars trimmed []
  if buf = [] ∨ buf = ['-'] then none
  else
    match buf with
    | '-' :: digits =>
      let n := digitsToNat digits
      if n ≤ 2147483648 then some (-(n : Int)) else none
    | digits =>
      let n := digitsToNat digits
      if n ≤ 2147483647 then some ((n : Int)) else none

/-- pty.rs `truncate_utf8` (lengths counted in characters; identical to the
byte version on ASCII data). -/
def truncateChars (value : List Char) (maxLen : Nat) : List Char × Bool :=
  if value.length ≤ maxLen then (value, false) else (value.take maxLen, true)

/-- pty.rs `extract_between_markers`: the text strictly between the first
line-anchored start marker (from the end of its line) and the next
line-anchored end-marker occurrence, plus the exit code parsed from the
characters following the end-marker prefix on its line. -/
def extractBetweenMarkers (raw startMarker endMarkerPfx : List Char) :
    Option (List Char × Option Int) :=
  match findMarkerLineFrom raw startMarker 0 with
  | none => none
  | some startIdx =>
    let afterMarker := startIdx + startMarker.length
    let startLineEnd :=
      match findSubFrom raw ['\n'] afterMarker with
      | some p => p + 1
      | none => afterMarker
    match findMarkerLineFrom raw endMarkerPfx startLineEnd with
    | none => none
    | some endIdx =>
      let captured := (raw.drop startLineEnd).take (endIdx - startLineEnd)
      let afterEnd := endIdx + endMarkerPfx.length
      let lineEnd :=
        match findSubFrom raw ['\n'] afterEnd with
        | some p => p
        | none => raw.length
      let exitSegment := (raw.drop afterEnd).take (lineEnd - afterEnd)
      some (captured, parseExitCode exitSegment)

/-- The accumulate-and-search loop shared by pty.rs
`read_until_markers_from_reader` and `read_until_markers_from_log`.  The pure
model consumes a list of chunks (the reads that complete before the deadline);
exhausting it stands for the wall-clock deadline elapsing (or EOF) with the
markers still unfound, which leaves the exit code `none`. -/
def readUntilMarkers (startMarker endMarkerPfx : List Char) (maxBytes : Nat) :
    List (List Char) → List Char → List Char × Option Int
  | [], acc => (acc, none)
  | chunk :: rest, acc =>
    let acc2 := acc ++ chunk
    match extractBetweenMarkers acc2 startMarker endMarkerPfx with
    | some (captured, code) => (captured, code)
    | none =>
      let acc3 :=
        if maxBytes * 4 < acc2.length then
          match findSubFrom acc2 startMarker 0 with
          | some idx => acc2.drop idx
          | none => acc2.drop (acc2.length - maxBytes * 2)
        else acc2
      readUntilMarkers startMarker endMarkerPfx maxBytes rest acc3

/-- The result quadruple returned by the two pty.rs read functions. -/
structure ReadOutcome where
  output : List Char
  exitCode : Option Int
  truncated : Bool
  timedOut : Bool

/-- The tail of both pty.rs read functions: `timed_out` is the absence of an
exit code, the accumulated text is sanitized and capped. -/
def finishRead (res : List Char × Option Int) (maxBytes : Nat) : ReadOutcome :=
  let timedOut := res.2.isNone
  let cleaned := sanitizeOutput res.1
  let pair := truncateChars cleaned maxBytes
  { output := pair.1, exitCode := res.2, truncated := pair.2, timedOut := timedOut }

/-- The fields of the `ToolResult` built by pty.rs `exec_in_new_session` and
`exec_in_session` that the timeout heuristic decides. -/
structure ExecResult where
  ok : Bool
  stdout : List Char
  stderrMsg : Option String
  exitCode : Option Int
  truncated : Bool

/-- The shared tail of pty.rs `exec_in_new_session` (lines 416-437) and
`exec_in_session` (lines 504-521): the timed-out-with-output heuristic, the
`ok` bit and the timeout stderr message. -/
def execOutcome (r : ReadOutcome) : ExecResult :=
  let pair :=
    if r.timedOut ∧ trimCharsL r.output ≠ [] then ((some (0 : Int)), false)
    else (r.exitCode, r.timedOut)
  { ok := pair.1.getD 1 == 0
  , stdout := r.output
  , stderrMsg := if pair.2 then some "Timeout waiting for command completion." else none
  , exitCode := pair.1
  , truncated := r.truncated }

/-- One whole interactive execution as observed through the marker protocol:
read until the markers are found or the input (time budget) is exhausted,
then post-process. -/
def execInteractiveModel (startMarker endMarkerPfx : List Char) (maxBytes : Nat)
    (chunks : List (List Char)) : ExecResult :=
  execOutcome (finishRead (readUntilMarkers startMarker endMarkerPfx maxBytes chunks []) maxBytes)

/-! ## Workspace sandbox (workspace.rs) -/

/-- Absolute filesystem paths, as lists of components. -/
abbrev Fpath := List String

/-- User/model-supplied input paths: `..` and `.` appear as ordinary
components; `absolute` distinguishes rooted inputs from workspace-relative
ones. -/
structure InputPath where
  absolute : Bool
  comps : List String
deriving DecidableEq

/-- One component step of workspace.rs `lexical_normalize`: `.` is dropped,
`..` pops the last component (when any), anything else is pushed. -/
def lexStep (acc : List String) (c : String) : List String :=
  if c = "." then acc
  else if c = ".." then acc.dropLast
  else acc ++ [c]

/-- workspace.rs `lexical_normalize`.  All modelled paths are rooted, so the
Windows-prefix and root-dir bookkeeping of the Rust version degenerates to the
component fold. -/
def lexicalNormalize (parts : List String) : Fpath :=
  parts.foldl lexStep []

/-- The filesystem underneath the sandbox: the set of existing paths, stored
as normalized component lists.  The model has no symbolic links, so Rust
`Path::canonicalize` succeeds exactly on existing paths and returns the
lexically normalized path, and `Path::exists` tests membership of the
normalized path. -/
abbrev Fs := List Fpath

/-- Existence test for a (possibly unnormalized) path. -/
def fsExists (fs : Fs) (p : List String) : Bool :=
  fs.contains (lexicalNormalize p)

/-- Rust `Path::canonicalize` under the no-symlink filesystem model. -/
def canonicalize (fs : Fs) (p : List String) : Option Fpath :=
  if fsExists fs p then some (lexicalNormalize p) else none

/-- workspace.rs `canonicalize_or`. -/
def canonicalizeOr (fs : Fs) (p : List String) : Fpath :=
  (canonicalize fs p).getD p

/-- workspace.rs `resolve_candidate`. -/
def resolveCandidate (root : Fpath) (input : InputPath) : List String :=
  if input.absolute then input.comps else root ++ input.comps

/-- workspace.rs `ensure_within_root`. -/
def ensureWithinRoot (fs : Fs) (root : Fpath) (candidate : List String) :
    Except String Unit :=
  let canonicalRoot := canonicalizeOr fs root
  if canonicalRoot.isPrefixOf candidate then .ok ()
  else .error "Path escapes workspace root"

/-- workspace.rs `ensure_within_root_lexical`. -/
def ensureWithinRootLexical (root candidate : List String) : Except String Unit :=
  if (lexicalNormalize root).isPrefixOf (lexicalNormalize candidate) then .ok ()
  else .error "Path escapes workspace root"

/-- workspace.rs `WorkspaceState::resolve_path` (read resolution).  The Rust
error embeds the io error text after the fixed stem; the model keeps the
stem. -/
def resolvePath (fs : Fs) (root : Fpath) (input : InputPath) : Except String Fpath :=
  let candidate := resolveCandidate root input
  match canonicalize fs candidate with
  | none => .error "Path not found"
  | some canonical =>
    match ensureWithinRoot fs root canonical with
    | .error e => .error e
    | .ok _ => .ok canonical

/-- workspace.rs `WorkspaceState::resolve_path_for_write`. -/
def resolvePathForWrite (fs : Fs) (root : Fpath) (input : InputPath) :
    Except String Fpath :=
  let candidate := resolveCandidate root input
  if fsExists fs candidate then
    match canonicalize fs candidate with
    | none => .error "Invalid file path"
    | some canonical =>
      match ensureWithinRoot fs root canonical with
      | .error e => .error e
      | .ok _ => .ok candidate
  else
    let canonicalRoot := canonicalizeOr fs root
    let normalized := lexicalNormalize candidate
    match ensureWithinRootLexical canonicalRoot normalized with
    | .error e => .error e
    | .ok _ => .ok normalized

/-! ## Kernel operations (kernel.rs) -/

/-- kernel.rs `is_stop_command`. -/
def isStopCommand (input : String) : Bool :=
  let normalized := strToLower (strTrim input)
  normalized == "stop" || normalized == "cancel" || normalized == "abort" ||
  normalized == "停止" || normalized == "停止任务" || normalized == "取消"

/-- kernel.rs `is_continue_command`. -/
def isContinueCommand (input : String) : Bool :=
  let normalized := strToLower (strTrim input)
  normalized == "continue" || normalized == "继续" || normalized == "继续吧" ||
  normalized == "go on" || normalized == "继续执行"

/-- kernel.rs `infer_default_continue_reply`. -/
def inferDefaultContinueReply (state : RunState) : Option String :=
  match state.messages.reverse.find? (fun msg => msg.role == "assistant") with
  | none => none
  | some lastAssistant =>
    let text := strTrim lastAssistant.content
    if text = "" then none
    else
      let lower := strToLower text
      if strContains lower "user input required" || strContains lower "prompt:" then none
      else
        let mentionsChoice :=
          strContains lower "还是" || strContains lower "选择" || strContains lower "确认" ||
          strContains lower "example" || strContains lower "示例" || strContains lower "只看" ||
          strContains lower "仅" || strContains lower "workspace" || strContains lower "本地" ||
          strContains lower "创建" || strContains lower "修改"
        if ¬mentionsChoice then none
        else some "请在当前工作区实际创建/修改文件并继续执行。"

/-- The concurrency-relevant fields of kernel.rs `KernelManager`: the run
state behind its mutex, the shared `paused` flag, and the atomic `running`
flag that gates loop spawning. -/
structure Kernel where
  state : RunState
  paused : Bool
  running : Bool
deriving DecidableEq

/-- kernel.rs `KernelStartRequest`. -/
structure KernelStartRequest where
  session_id : Option String
  max_steps : Option Nat
  task_id : Option String
deriving DecidableEq

/-- kernel.rs `KernelManager::start` (lines 639-675): the running-flag gate,
the state replacement with its unconditional plan/tasks/messages/turn/task-id
carry-over, the session id, and the budget handling.  Event emission,
persistence and the actual loop spawn are side effects outside the state
model. -/
def kernelStart (k : Kernel) (request : KernelStartRequest) (newRunId cwd : String) :
    Except String Kernel :=
  if k.running then .error "Kernel already running"
  else
    let st := k.state
    let base := RunState.init newRunId cwd
    let newState :=
      { base with
        plan := st.plan
        tasks := st.tasks
        messages := st.messages
        turn := st.turn
        task_id := request.task_id.or st.task_id
        agent_state := .Running
        tool_context := { base.tool_context with session_id := request.session_id }
        budget := { base.budget with
                    max_steps := request.max_steps.getD base.budget.max_steps } }
    .ok { state := newState, paused := k.paused, running := true }

/-- kernel.rs `KernelManager::pause`: the paused flag is set first and
unconditionally; the agent state moves only from Running to Paused. -/
def kernelPause (k : Kernel) : Kernel :=
  { k with
    paused := true
    state :=
      if k.state.agent_state = .Running then { k.state with agent_state := .Paused }
      else k.state }

/-- kernel.rs `KernelManager::resume`. -/
def kernelResume (k : Kernel) : Kernel :=
  let shouldSpawn := k.state.agent_state = .Paused
  { k with
    paused := false
    state :=
      if k.state.agent_state = .Paused then { k.state with agent_state := .Running }
      else k.state
    running := k.running || shouldSpawn }

/-- kernel.rs `KernelManager::stop`. -/
def kernelStop (k : Kernel) : Kernel :=
  { k with
    paused := false
    state :=
      if k.state.agent_state ≠ .Idle then { k.state with agent_state := .Finished }
      else k.state }

/-- kernel.rs `KernelManager::continue_run`. -/
def kernelContinue (k : Kernel) : Kernel :=
  let shouldSpawn := k.state.agent_state = .AwaitingUser
  { k with
    paused := false
    state :=
      if k.state.agent_state = .AwaitingUser then
        { k.state with
          agent_state := .Running
          budget := { k.state.budget with used_steps := 0 }
          last_error := none }
      else k.state
    running := k.running || shouldSpawn }

/-- kernel.rs `KernelManager::user_input` (lines 741-799).  A stop phrase
forces Finished and clears the paused flag; otherwise, from AwaitingUser the
budget is zeroed, the error cleared, and a bare continue phrase may be
replaced by the canned instruction; the message is appended and the state
moves to Running (spawning the loop, hence `running := true`). -/
def kernelUserInput (k : Kernel) (content : String) : Except String Kernel :=
  let c := strTrim content
  if c = "" then .error "User input cannot be empty"
  else if isStopCommand c then
    .ok { k with
          state := { k.state with agent_state := .Finished, last_error := none }
          paused := false }
  else
    let st := k.state
    let pair : String × RunState :=
      if st.agent_state = .AwaitingUser then
        ((if isContinueCommand c then (inferDefaultContinueReply st).getD c else c),
         { st with
           budget := { st.budget with used_steps := 0 }
           last_error := none })
      else (c, st)
    let st2 : RunState :=
      { pair.2 with
        messages := pair.2.messages ++ [{ role := "user", content := pair.1 }]
        turn := pair.2.turn + 1 }
    let st3 : RunState :=
      if st2.agent_state ≠ .Running then { st2 with agent_state := .Running } else st2
    .ok { state := st3, paused := k.paused, running := true }

/-! ## Run-loop body (kernel.rs `run_loop`) -/

/-- kernel.rs `trim_to` (lengths counted in characters). -/
def trimTo (value : String) (maxLen : Nat) : String :=
  if value.data.length ≤ maxLen then value else String.mk (value.data.take maxLen)

/-- Discriminator for the `matches!(action, Action::UserAsk { .. })` test. -/
def Action.isUserAsk : Action → Bool
  | .UserAsk _ _ => true
  | _ => false

/-- kernel.rs `KernelManager::apply_observation` (the state mutation: plan and
task updates, the capped recent-observation ring, the suspension and error
transitions, and marking the first matching plan step or task done). -/
def applyObservation (st : RunState) (action : Action) (obs : Observation) : RunState :=
  let st :=
    match action with
    | .PlanUpdate _ plan => { st with plan := some plan }
    | _ => st
  let st :=
    match action with
    | .TaskUpdate _ tasks => { st with tasks := some tasks }
    | _ => st
  let summary := trimTo obs.summary 2000
  let st :=
    if summary ≠ "" then
      let ros := st.recent_observations ++ [actionIdOf action ++ ": " ++ summary]
      { st with recent_observations := if 6 < ros.length then ros.drop 1 else ros }
    else st
  if obs.requires_user then
    { st with agent_state := .AwaitingUser, last_error := some obs.summary }
  else if obs.ok then
    let st :=
      match st.plan with
      | some plan =>
        { st with plan := some { plan with
            steps := updateFirst (fun step => step.id == actionIdOf action)
              (fun step => { step with status := "done", done := true }) plan.steps } }
      | none => st
    match st.tasks with
    | some tasks =>
      { st with tasks := some { tasks with
          items := updateFirst (fun item => item.id == actionIdOf action)
            (fun item => { item with status := "done" }) tasks.items } }
    | none => st
  else
    { st with agent_state := .Error, last_error := some obs.summary }

/-- The action loop of kernel.rs `run_loop` (lines 1043-1128), sequentially:
re-check the snapshot is Running, suspend on UserAsk (breaking out of the
whole run), dispatch, set Error and break on a dispatch failure, apply the
observation, and break when it requires the user.  Returns the final state,
the list of actions submitted to the dispatcher (in order), and whether the
batch broke out of the run loop. -/
def processActions (dispatch : Action → Except String Observation) :
    RunState → List Action → RunState × List Action × Bool
  | st, [] => (st, [], false)
  | st, action :: rest =>
    if st.agent_state ≠ .Running then (st, [], true)
    else if action.isUserAsk then
      ({ st with agent_state := .AwaitingUser }, [], true)
    else
      match dispatch action with
      | .error err =>
        let message := if strTrim err = "" then "Runtime error" else err
        ({ st with agent_state := .Error, last_error := some message }, [action], true)
      | .ok obs =>
        let st2 := applyObservation st action obs
        if obs.requires_user then (st2, [action], true)
        else
          let res := processActions dispatch st2 rest
          (res.1, action :: res.2.1, res.2.2)

/-- kernel.rs `run_loop` step completion (lines 1129-1131):
`used_steps.saturating_add(1)`. -/
def bumpUsedSteps (st : RunState) : RunState :=
  { st with budget := { st.budget with used_steps := st.budget.used_steps + 1 } }

/-- One run-loop iteration over a decided action batch: the batch is
processed and, when it completes without breaking out of the run, the step
counter is incremented. -/
def runBatch (dispatch : Action → Except String Observation) (st : RunState)
    (actions : List Action) : RunState :=
  let res := processActions dispatch st actions
  if res.2.2 then res.1 else bumpUsedSteps res.1

/-- How the head of a kernel.rs `run_loop` iteration (lines 941-977) proceeds:
sleep while paused, exit when not Running, stop on an exhausted budget, or
call the Decision Engine. -/
inductive LoopPhase where
  | sleepPaused
  | exitNotRunning
  | budgetStop
  | decideStep
deriving DecidableEq

/-- The decision taken at the top of each kernel.rs `run_loop` iteration,
before any Decision Engine call or dispatch. -/
def loopPhase (k : Kernel) : LoopPhase :=
  if k.paused then .sleepPaused
  else if k.state.agent_state ≠ .Running then .exitNotRunning
  else if k.state.budget.max_steps ≤ k.state.budget.used_steps then .budgetStop
  else .decideStep

/-- kernel.rs `run_loop` budget notice (line 957). -/
def budgetNotice (maxSteps : Nat) : String :=
  "Step budget reached (" ++ toString maxSteps ++
    " steps). Reply \"continue\" to proceed or \"stop\" to end."

/-- kernel.rs `run_loop` budget-stop update (lines 961-968): AwaitingUser with
the notice appended; `used_steps` is left untouched. -/
def budgetStopUpdate (st : RunState) : RunState :=
  { st with
    agent_state := .AwaitingUser
    last_error := none
    messages := st.messages ++
      [{ role := "assistant", content := budgetNotice st.budget.max_steps }] }

/-! ## Action parsing (kernel.rs) -/

/-- kernel.rs `action_id_prefix`. -/
def actionIdTag : String → String
  | "terminal.exec" => "term"
  | "terminal.run" => "run"
  | "fs.read" => "read"
  | "fs.write" => "write"
  | "fs.search" => "search"
  | "git.status" => "git"
  | "git.diff" => "diff"
  | "tests.run" => "test"
  | "plan.update" => "plan"
  | "task.update" => "task"
  | "user.ask" => "ask"
  | _ => "act"

/-- kernel.rs `make_id`, with the UUIDv4 generator abstracted as an indexed
supply `uuidAt` of strings and a counter selecting the next fresh value. -/
def makeId (uuidAt : Nat → String) (tag : String) (n : Nat) : String :=
  tag ++ "_" ++ uuidAt n

/-- kernel.rs `required_string_field`. -/
def requiredStringField (j : Json) (key : String) : Except String String :=
  match coerceString (jGet j key) with
  | some text =>
    if strTrim text ≠ "" then .ok (strTrim text)
    else .error ("Field '" ++ key ++ "' is required")
  | none => .error ("Field '" ++ key ++ "' is required")

/-- kernel.rs `parse_string_list`. -/
def parseStringList : Option Json → List String
  | some (.arr items) =>
    (items.filterMap (fun v => coerceString (some v))).filter (fun v => v ≠ "")
  | some (.str text) =>
    ((strSplitWs text).map (fun part => strTrim part)).filter
      (fun part => part ≠ "")
  | _ => []

/-- kernel.rs `parse_plan_step`, threading the uuid counter. -/
def parsePlanStep (uuidAt : Nat → String) (v : Json) (n : Nat) : Option PlanStep × Nat :=
  match v with
  | .str text =>
    if strTrim text = "" then (none, n)
    else (some { id := makeId uuidAt "plan" n, title := strTrim text,
                 status := "pending", done := false }, n + 1)
  | .obj _ =>
    match (coerceString (jGet v "title")).orElse
        (fun _ => (coerceString (jGet v "text")).orElse
          (fun _ => coerceString (jGet v "step"))) with
    | none => (none, n)
    | some title =>
      let idPair : String × Nat :=
        match coerceString (jGet v "id") with
        | some s => (s, n)
        | none => (makeId uuidAt "plan" n, n + 1)
      let status := (coerceString (jGet v "status")).getD "pending"
      let done := (jAsBool (jGet v "done")).getD (status == "done" || status == "skipped")
      (some { id := idPair.1, title := title, status := status, done := done }, idPair.2)
  | _ => (none, n)

/-- kernel.rs `parse_plan_steps`, elementwise over an array. -/
def parsePlanStepsList (uuidAt : Nat → String) : List Json → Nat → List PlanStep × Nat
  | [], n => ([], n)
  | item :: rest, n =>
    let head := parsePlanStep uuidAt item n
    let tail := parsePlanStepsList uuidAt rest head.2
    (match head.1 with
     | some step => step :: tail.1
     | none => tail.1, tail.2)

/-- kernel.rs `parse_plan_steps`. -/
def parsePlanSteps (uuidAt : Nat → String) (v : Json) (n : Nat) : List PlanStep × Nat :=
  match v with
  | .arr items => parsePlanStepsList uuidAt items n
  | .str text =>
    if strTrim text ≠ "" then
      ([{ id := makeId uuidAt "plan" n, title := strTrim text,
          status := "pending", done := false }], n + 1)
    else ([], n)
  | _ => ([], n)

/-- kernel.rs `parse_plan_value`. -/
def parsePlanValue (uuidAt : Nat → String) (v : Json) (goalHint : Option String) (n : Nat) :
    Except String (Plan × Nat) :=
  match v with
  | .obj _ =>
    let goal := ((coerceString (jGet v "goal")).orElse (fun _ => goalHint)).getD ""
    if strTrim goal = "" then .error "Plan goal is required"
    else
      match jGet v "steps" with
      | none => .error "Plan steps are required"
      | some stepsValue =>
        let res := parsePlanSteps uuidAt stepsValue n
        if res.1.isEmpty then .error "Plan steps are required"
        else .ok ({ version := 1, goal := goal, steps := res.1 }, res.2)
  | _ => .error "Plan must be an object"

/-- kernel.rs `parse_task_entry`, threading the uuid counter. -/
def parseTaskEntry (uuidAt : Nat → String) (v : Json) (n : Nat) : Option Task × Nat :=
  match v with
  | .str text =>
    if strTrim text = "" then (none, n)
    else (some { id := makeId uuidAt "task" n, title := strTrim text,
                 status := "todo", notes := none }, n + 1)
  | .obj _ =>
    match (coerceString (jGet v "title")).orElse
        (fun _ => (coerceString (jGet v "text")).orElse
          (fun _ => coerceString (jGet v "task"))) with
    | none => (none, n)
    | some title =>
      let idPair : String × Nat :=
        match coerceString (jGet v "id") with
        | some s => (s, n)
        | none => (makeId uuidAt "task" n, n + 1)
      let status := (coerceString (jGet v "status")).getD "todo"
      let notes := coerceString (jGet v "notes")
      (some { id := idPair.1, title := title, status := status, notes := notes }, idPair.2)
  | _ => (none, n)

/-- kernel.rs `parse_task_items`, elementwise over an array. -/
def parseTaskItemsList (uuidAt : Nat → String) : List Json → Nat → List Task × Nat
  | [], n => ([], n)
  | entry :: rest, n =>
    let head := parseTaskEntry uuidAt entry n
    let tail := parseTaskItemsList uuidAt rest head.2
    (match head.1 with
     | some task => task :: tail.1
     | none => tail.1, tail.2)

/-- kernel.rs `parse_task_items`. -/
def parseTaskItems (uuidAt : Nat → String) (v : Json) (n : Nat) : List Task × Nat :=
  match v with
  | .arr entries => parseTaskItemsList uuidAt entries n
  | .str text =>
    if strTrim text ≠ "" then
      ([{ id := makeId uuidAt "task" n, title := strTrim text,
          status := "todo", notes := none }], n + 1)
    else ([], n)
  | _ => ([], n)

/-- kernel.rs `parse_task_list`. -/
def parseTaskList (uuidAt : Nat → String) (v : Json) (n : Nat) :
    Except String (TaskList × Nat) :=
  let itemsValue :=
    match v with
    | .obj _ => ((jGet v "items").orElse (fun _ => jGet v "tasks")).getD v
    | _ => v
  let res := parseTaskItems uuidAt itemsValue n
  if res.1.isEmpty then .error "Task items are required"
  else .ok ({ version := 1, items := res.1 }, res.2)

/-- The per-type arm dispatch of kernel.rs `parse_action` (lines 1927-1984),
after the action id has been resolved: each arm reads its required and
optional fields and builds the variant carrying `id`. -/
def parseActionBody (uuidAt : Nat → String) (goalHint : Option String) (v : Json)
    (ty id : String) (n1 : Nat) : Except String (Action × Nat) :=
  if ty = "terminal.exec" then
    match requiredStringField v "cmd" with
    | .error e => .error e
    | .ok cmd =>
      let cwd := (coerceString (jGet v "cwd")).filter (fun s => s ≠ "")
      .ok (.TerminalExec id cmd cwd, n1)
  else if ty = "terminal.run" then
    match requiredStringField v "program" with
    | .error e => .error e
    | .ok program =>
      let args := parseStringList (jGet v "args")
      let cwd := (coerceString (jGet v "cwd")).filter (fun s => s ≠ "")
      .ok (.TerminalRun id program args cwd, n1)
  else if ty = "fs.read" then
    match requiredStringField v "path" with
    | .error e => .error e
    | .ok path => .ok (.FsRead id path, n1)
  else if ty = "fs.write" then
    match requiredStringField v "path" with
    | .error e => .error e
    | .ok path =>
      match requiredStringField v "content" with
      | .error e => .error e
      | .ok content => .ok (.FsWrite id path content, n1)
  else if ty = "fs.search" then
    match requiredStringField v "pattern" with
    | .error e => .error e
    | .ok pattern =>
      let paths := parseStringList (jGet v "paths")
      .ok (.FsSearch id pattern (if paths.isEmpty then none else some paths), n1)
  else if ty = "git.status" then .ok (.GitStatus id, n1)
  else if ty = "git.diff" then
    let path := (coerceString (jGet v "path")).filter (fun s => s ≠ "")
    .ok (.GitDiff id path, n1)
  else if ty = "tests.run" then
    match requiredStringField v "program" with
    | .error e => .error e
    | .ok program =>
      let args := parseStringList (jGet v "args")
      .ok (.TestsRun id program args, n1)
  else if ty = "plan.update" then
    let planValue := (jGet v "plan").getD v
    match parsePlanValue uuidAt planValue goalHint n1 with
    | .error e => .error e
    | .ok res => .ok (.PlanUpdate id res.1, res.2)
  else if ty = "task.update" then
    let tasksValue := (jGet v "tasks").getD v
    match parseTaskList uuidAt tasksValue n1 with
    | .error e => .error e
    | .ok res => .ok (.TaskUpdate id res.1, res.2)
  else if ty = "user.ask" then
    match requiredStringField v "question" with
    | .error e => .error e
    | .ok question => .ok (.UserAsk id question, n1)
  else .error ("Unsupported action type: " ++ ty)

/-- kernel.rs `parse_action` (lines 1918-1985), threading the uuid counter
through every `make_id` call in source evaluation order: the action id is
resolved (kept verbatim when `coerce_string` yields one for the `id` field,
freshly generated otherwise) before the per-type field parsing. -/
def parseAction (uuidAt : Nat → String) (goalHint : Option String) (v : Json) (n : Nat) :
    Except String (Action × Nat) :=
  match v with
  | .obj _ =>
    match jAsStr (jGet v "type") with
    | none => .error "Action type is required"
    | some ty =>
      let idPair : String × Nat :=
        match coerceString (jGet v "id") with
        | some s => (s, n)
        | none => (makeId uuidAt (actionIdTag ty) n, n + 1)
      parseActionBody uuidAt goalHint v ty idPair.1 idPair.2
  | _ => .error "Action must be an object"

/-- kernel.rs `parse_actions_value`, elementwise over an array. -/
def parseActionsList (uuidAt : Nat → String) (goalHint : Option String) :
    List Json → Nat → Except String (List Action × Nat)
  | [], n => .ok ([], n)
  | item :: rest, n =>
    match parseAction uuidAt goalHint item n with
    | .error e => .error e
    | .ok head =>
      match parseActionsList uuidAt goalHint rest head.2 with
      | .error e => .error e
      | .ok tail => .ok (head.1 :: tail.1, tail.2)

/-- kernel.rs `parse_actions_value`. -/
def parseActionsValue (uuidAt : Nat → String) (goalHint : Option String) (v : Json) (n : Nat) :
    Except String (List Action × Nat) :=
  match v with
  | .arr items => parseActionsList uuidAt goalHint items n
  | .obj _ =>
    match parseAction uuidAt goalHint v n with
    | .error e => .error e
    | .ok res => .ok ([res.1], res.2)
  | _ => .error "Actions must be a JSON array or object"

/-- The explicit id of an action's JSON object, exactly as kernel.rs
`parse_action` reads it before deciding to generate one. -/
def explicitId (j : Json) : Option String :=
  coerceString (jGet j "id")

/-- The `type` discriminator string of an action's JSON object. -/
def typeStrOf (j : Json) : String :=
  (jAsStr (jGet j "type")).getD ""

/-- The ids of the parsed actions whose source JSON object carried no usable
explicit `id` — the ids kernel.rs freshly generates for one batch. -/
def genIdsOf (js : List Json) (as : List Action) : List String :=
  (js.zip as).filterMap
    (fun p => if (explicitId p.1).isNone then some (actionIdOf p.2) else none)

/-! ## Claim C7: marker extraction on the synthetic stream -/

/-- Claim C7 counterexample: on the claimed byte stream the extraction
succeeds with exit code 0, but the captured text is "hello\n" — the text
strictly between the marker lines keeps the newline that terminates the
output line — not "hello" as the claim states. -/
theorem c7_counterexample :
    extractBetweenMarkers ("noise\n__START:T__\nhello\n__END:T:0\ntail").data
        ("__START:T__").data ("__END:T:").data
      = some (("hello\n").data, some 0)
    ∧ ("hello\n").data ≠ ("hello").data := by
  exact ⟨by rfl, by decide⟩

/-- Claim C7 (amended): marker extraction applied to
"noise\n__START:T__\nhello\n__END:T:0\ntail" returns the captured text
"hello\n" (including the trailing newline of the captured line) and exit
code 0; with the end line "__END:T:-1" the parsed exit code is -1. -/
theorem c7_marker_extraction :
    extractBetweenMarkers ("noise\n__START:T__\nhello\n__END:T:0\ntail").data
        ("__START:T__").data ("__END:T:").data
      = some (("hello\n").data, some 0)
    ∧ extractBetweenMarkers ("noise\n__START:T__\nhello\n__END:T:-1\ntail").data
        ("__START:T__").data ("__END:T:").data
      = some (("hello\n").data, some (-1)) := by
  exact ⟨by rfl, by rfl⟩

/-! ## Claim C3: the destructive-command deny-list -/

/-- Claim C3 counterexample: the terminal.exec dispatch arm of
`Runtime::execute` hands the command line straight to the pseudo-terminal
(`exec_interactive` performs no deny-list check), even for a command line the
deny-list itself classifies as dangerous — so a deny-listed terminal.exec is
not rejected before bytes are written to the pty. -/
theorem c3_counterexample :
    execRoute (fun s => .ok s) (.TerminalExec "t1" "rm -rf /" none)
      = .ptyWrite "rm -rf /"
    ∧ isDangerousCommand "sh" ["-c", "rm -rf /"]
      = some "Blocked dangerous command pattern: rm -rf /" := by
  exact ⟨by rfl, by decide⟩

/-- Claim C3 (amended): every dispatch that goes through tools.rs
`run_command` — terminal.run, tests.run, git.status, git.diff — is vetoed by
the deny-list before any process is spawned; terminal.exec, however, bypasses
the deny-list entirely and its command line is written to the pseudo-terminal
unchecked. -/
theorem c3_deny_list_guard (resolve : String → Except String String)
    (id program cmd : String) (args : List String) (reason : String)
    (hdanger : isDangerousCommand program args = some reason) :
    runCommandRoute program args = .rejected reason
    ∧ execRoute resolve (.TerminalRun id program args none) = .rejected reason
    ∧ execRoute resolve (.TestsRun id program args) = .rejected reason
    ∧ execRoute resolve (.GitStatus id)
      = runCommandRoute "git" ["status", "--porcelain=v1", "--untracked-files=all"]
    ∧ execRoute resolve (.GitDiff id none) = runCommandRoute "git" ["diff"]
    ∧ execRoute resolve (.TerminalExec id cmd none) = .ptyWrite cmd := by
  refine ⟨?_, ?_, ?_, rfl, rfl, rfl⟩ <;>
    simp [execRoute, runCommandRoute, hdanger]

/-- Claim C3 witness: the amended theorem applied to the deny-listed command
line "sh -c rm -rf /". -/
theorem c3_witness :
    runCommandRoute "sh" ["-c", "rm -rf /"]
      = .rejected "Blocked dangerous command pattern: rm -rf /"
    ∧ execRoute (fun s => .ok s)
        (.TerminalRun "a1" "sh" ["-c", "rm -rf /"] none)
      = .rejected "Blocked dangerous command pattern: rm -rf /"
    ∧ execRoute (fun s => .ok s) (.TestsRun "a1" "sh" ["-c", "rm -rf /"])
      = .rejected "Blocked dangerous command pattern: rm -rf /"
    ∧ execRoute (fun s => .ok s) (.GitStatus "a1")
      = runCommandRoute "git" ["status", "--porcelain=v1", "--untracked-files=all"]
    ∧ execRoute (fun s => .ok s) (.GitDiff "a1" none) = runCommandRoute "git" ["diff"]
    ∧ execRoute (fun s => .ok s) (.TerminalExec "a1" "echo hi" none)
      = .ptyWrite "echo hi" :=
  c3_deny_list_guard (fun s => .ok s) "a1" "sh" "echo hi" ["-c", "rm -rf /"]
    "Blocked dangerous command pattern: rm -rf /" (by decide)

/-! ## Claim C8: judge rule aggregation -/

/-- The per-rule check record built by one iteration of judge.rs
`evaluate_rules`. -/
def mkJudgeCheck (ctx : JudgeContext) (exec : JudgeRule → JudgeContext → JudgeRuleOutcome)
    (rule : JudgeRule) : JudgeCheck :=
  { id := rule.id, rule_type := rule.rule_type, status := (exec rule ctx).status,
    reason := (exec rule ctx).reason, evidence := (exec rule ctx).evidence }

theorem judgeStep_checks (ctx : JudgeContext) (exec : JudgeRule → JudgeContext → JudgeRuleOutcome)
    (acc : JudgeAcc) (rule : JudgeRule) :
    (judgeStep ctx exec acc rule).checks = acc.checks ++ [mkJudgeCheck ctx exec rule] := by
  dsimp only [judgeStep, mkJudgeCheck]
  repeat' split
  all_goals rfl

theorem judgeStep_sawFail (ctx : JudgeContext) (exec : JudgeRule → JudgeContext → JudgeRuleOutcome)
    (acc : JudgeAcc) (rule : JudgeRule) :
    (judgeStep ctx exec acc rule).sawFail
      = (acc.sawFail ||
          ((exec rule ctx).status == "fail" || (exec rule ctx).status == "error")) := by
  dsimp only [judgeStep]
  repeat' split
  all_goals simp_all [beq_iff_eq]

theorem judgeStep_sawPass (ctx : JudgeContext) (exec : JudgeRule → JudgeContext → JudgeRuleOutcome)
    (acc : JudgeAcc) (rule : JudgeRule) :
    (judgeStep ctx exec acc rule).sawPass
      = (acc.sawPass || (exec rule ctx).status == "pass") := by
  dsimp only [judgeStep]
  repeat' split
  all_goals simp_all [beq_iff_eq]

theorem judgeStep_sawSkip (ctx : JudgeContext) (exec : JudgeRule → JudgeContext → JudgeRuleOutcome)
    (acc : JudgeAcc) (rule : JudgeRule) :
    (judgeStep ctx exec acc rule).sawSkip
      = (acc.sawSkip || (exec rule ctx).status == "skip") := by
  dsimp only [judgeStep]
  repeat' split
  all_goals try casesm* _ ∨ _
  all_goals simp_all [beq_iff_eq]

theorem judgeStep_sawPending (ctx : JudgeContext)
    (exec : JudgeRule → JudgeContext → JudgeRuleOutcome) (acc : JudgeAcc) (rule : JudgeRule) :
    (judgeStep ctx exec acc rule).sawPending
      = (acc.sawPending ||
          !((exec rule ctx).status == "pass" || (exec rule ctx).status == "fail" ||
            (exec rule ctx).status == "error" || (exec rule ctx).status == "skip")) := by
  dsimp only [judgeStep]
  repeat' split
  all_goals try casesm* _ ∨ _
  all_goals simp_all [beq_iff_eq]

theorem judgeFold_checks (ctx : JudgeContext) (exec : JudgeRule → JudgeContext → JudgeRuleOutcome)
    (rules : List JudgeRule) :
    ∀ acc, (rules.foldl (judgeStep ctx exec) acc).checks
      = acc.checks ++ rules.map (mkJudgeCheck ctx exec) := by
  induction rules with
  | nil => intro acc; simp
  | cons rule rest ih =>
    intro acc
    simp only [List.foldl_cons, List.map_cons]
    rw [ih, judgeStep_checks]
    simp

theorem judgeFold_sawFail (ctx : JudgeContext) (exec : JudgeRule → JudgeContext → JudgeRuleOutcome)
    (rules : List JudgeRule) :
    ∀ acc, (rules.foldl (judgeStep ctx exec) acc).sawFail
      = (acc.sawFail || rules.any
          (fun r => (exec r ctx).status == "fail" || (exec r ctx).status == "error")) := by
  induction rules with
  | nil => intro acc; simp
  | cons rule rest ih =>
    intro acc
    simp only [List.foldl_cons, List.any_cons]
    rw [ih, judgeStep_sawFail]
    simp [Bool.or_assoc]

theorem judgeFold_sawPass (ctx : JudgeContext) (exec : JudgeRule → JudgeContext → JudgeRuleOutcome)
    (rules : List JudgeRule) :
    ∀ acc, (rules.foldl (judgeStep ctx exec) acc).sawPass
      = (acc.sawPass || rules.any (fun r => (exec r ctx).status == "pass")) := by
  induction rules with
  | nil => intro acc; simp
  | cons rule rest ih =>
    intro acc
    simp only [List.foldl_cons, List.any_cons]
    rw [ih, judgeStep_sawPass]
    simp [Bool.or_assoc]

theorem judgeFold_sawSkip (ctx : JudgeContext) (exec : JudgeRule → JudgeContext → JudgeRuleOutcome)
    (rules : List JudgeRule) :
    ∀ acc, (rules.foldl (judgeStep ctx exec) acc).sawSkip
      = (acc.sawSkip || rules.any (fun r => (exec r ctx).status == "skip")) := by
  induction rules with
  | nil => intro acc; simp
  | cons rule rest ih =>
    intro acc
    simp only [List.foldl_cons, List.any_cons]
    rw [ih, judgeStep_sawSkip]
    simp [Bool.or_assoc]

theorem judgeFold_sawPending (ctx : JudgeContext)
    (exec : JudgeRule → JudgeContext → JudgeRuleOutcome) (rules : List JudgeRule) :
    ∀ acc, (rules.foldl (judgeStep ctx exec) acc).sawPending
      = (acc.sawPending || rules.any
          (fun r => !((exec r ctx).status == "pass" || (exec r ctx).status == "fail" ||
            (exec r ctx).status == "error" || (exec r ctx).status == "skip"))) := by
  induction rules with
  | nil => intro acc; simp
  | cons rule rest ih =>
    intro acc
    simp only [List.foldl_cons, List.any_cons]
    rw [ih, judgeStep_sawPending]
    simp [Bool.or_assoc]

/-- The aggregate status of judge.rs `evaluate_rules` over a nonempty rule
list, characterized by which per-rule statuses occur. -/
theorem evaluateRules_status_eq (ctx : JudgeContext)
    (exec : JudgeRule → JudgeContext → JudgeRuleOutcome) (rules : List JudgeRule)
    (h : rules.isEmpty = false) :
    (evaluateRules rules ctx exec).status =
      (if rules.any (fun r => (exec r ctx).status == "fail" || (exec r ctx).status == "error")
        then "fail"
       else if rules.any (fun r => !((exec r ctx).status == "pass" ||
          (exec r ctx).status == "fail" || (exec r ctx).status == "error" ||
          (exec r ctx).status == "skip")) then "pending"
       else if rules.any (fun r => (exec r ctx).status == "pass") then "pass"
       else if rules.any (fun r => (exec r ctx).status == "skip") then "skip"
       else "pending") := by
  unfold evaluateRules
  rw [h]
  dsimp only
  rw [judgeFold_sawFail, judgeFold_sawPass, judgeFold_sawSkip, judgeFold_sawPending]
  simp only [Bool.false_or]
  repeat' split
  all_goals simp_all

/-- Claim C8: judge rule aggregation over one evaluation — an empty rule list
aggregates to the no-op "skip"; with rules present, any per-rule "fail" forces
the aggregate "fail"; with no "fail" among the (well-formed) rule results, any
"pending" forces the aggregate "pending"; and one check record is produced
per rule, in rule order, carrying that rule id and its outcome. -/
theorem c8_judge_aggregation (rules : List JudgeRule) (ctx : JudgeContext)
    (exec : JudgeRule → JudgeContext → JudgeRuleOutcome)
    (hstatuses : ∀ r ∈ rules, (exec r ctx).status = "pass" ∨ (exec r ctx).status = "fail"
      ∨ (exec r ctx).status = "pending" ∨ (exec r ctx).status = "skip") :
    (evaluateRules [] ctx exec).status = "skip"
    ∧ ((∃ r ∈ rules, (exec r ctx).status = "fail") →
        (evaluateRules rules ctx exec).status = "fail")
    ∧ (rules ≠ [] → (∀ r ∈ rules, (exec r ctx).status ≠ "fail") →
        (∃ r ∈ rules, (exec r ctx).status = "pending") →
        (evaluateRules rules ctx exec).status = "pending")
    ∧ (evaluateRules rules ctx exec).checks = rules.map (mkJudgeCheck ctx exec) := by
  refine ⟨rfl, ?_, ?_, ?_⟩
  · rintro ⟨r, hr, hfail⟩
    have hne : rules.isEmpty = false := by
      cases rules with
      | nil => cases hr
      | cons a t => rfl
    have hany : rules.any
        (fun r => (exec r ctx).status == "fail" || (exec r ctx).status == "error") = true := by
      rw [List.any_eq_true]
      exact ⟨r, hr, by simp [beq_iff_eq, hfail]⟩
    rw [evaluateRules_status_eq ctx exec rules hne, hany]
    rfl
  · intro hne hnofail hex
    obtain ⟨r, hr, hpending⟩ := hex
    have hne2 : rules.isEmpty = false := by
      cases rules with
      | nil => exact absurd rfl hne
      | cons a t => rfl
    have hanyfail : rules.any
        (fun r => (exec r ctx).status == "fail" || (exec r ctx).status == "error") = false := by
      rw [Bool.eq_false_iff]
      intro hcontra
      rw [List.any_eq_true] at hcontra
      obtain ⟨r2, hr2, hp⟩ := hcontra
      rcases Bool.or_eq_true_iff.mp hp with h | h
      · exact hnofail r2 hr2 (by simpa [beq_iff_eq] using h)
      · have hall := hstatuses r2 hr2
        have herr : (exec r2 ctx).status = "error" := by simpa [beq_iff_eq] using h
        rw [herr] at hall
        rcases hall with h1 | h1 | h1 | h1 <;> exact absurd h1 (by decide)
    have hanypending : rules.any
        (fun r => !((exec r ctx).status == "pass" || (exec r ctx).status == "fail" ||
          (exec r ctx).status == "error" || (exec r ctx).status == "skip")) = true := by
      rw [List.any_eq_true]
      exact ⟨r, hr, by simp [beq_iff_eq, hpending]⟩
    rw [evaluateRules_status_eq ctx exec rules hne2, hanyfail, hanypending]
    rfl
  · cases hrules : rules with
    | nil => simp [evaluateRules]
    | cons a t =>
      unfold evaluateRules
      simp only [List.isEmpty_cons, Bool.false_eq_true, if_false]
      rw [judgeFold_checks]
      simp

/-- Claim C8 witness: the aggregation theorem applied to a concrete pair of
rules whose outcomes are fail and pending. -/
theorem c8_witness :
    (evaluateRules [] ⟨1, none⟩
        (fun r _ => if r.id == "r1" then ⟨"fail", some "boom", []⟩
                    else ⟨"pending", none, []⟩)).status = "skip"
    ∧ ((∃ r ∈ [(⟨"r1", "command", none, none, none⟩ : JudgeRule),
          ⟨"r2", "command", none, none, none⟩],
        ((fun (r : JudgeRule) (_ : JudgeContext) =>
          if r.id == "r1" then (⟨"fail", some "boom", []⟩ : JudgeRuleOutcome)
          else ⟨"pending", none, []⟩) r ⟨1, none⟩).status = "fail") →
        (evaluateRules [⟨"r1", "command", none, none, none⟩,
            ⟨"r2", "command", none, none, none⟩] ⟨1, none⟩
          (fun r _ => if r.id == "r1" then ⟨"fail", some "boom", []⟩
                      else ⟨"pending", none, []⟩)).status = "fail")
    ∧ ([(⟨"r1", "command", none, none, none⟩ : JudgeRule),
          ⟨"r2", "command", none, none, none⟩] ≠ [] →
        (∀ r ∈ [(⟨"r1", "command", none, none, none⟩ : JudgeRule),
            ⟨"r2", "command", none, none, none⟩],
          ((fun (r : JudgeRule) (_ : JudgeContext) =>
            if r.id == "r1" then (⟨"fail", some "boom", []⟩ : JudgeRuleOutcome)
            else ⟨"pending", none, []⟩) r ⟨1, none⟩).status ≠ "fail") →
        (∃ r ∈ [(⟨"r1", "command", none, none, none⟩ : JudgeRule),
            ⟨"r2", "command", none, none, none⟩],
          ((fun (r : JudgeRule) (_ : JudgeContext) =>
            if r.id == "r1" then (⟨"fail", some "boom", []⟩ : JudgeRuleOutcome)
            else ⟨"pending", none, []⟩) r ⟨1, none⟩).status = "pending") →
        (evaluateRules [⟨"r1", "command", none, none, none⟩,
            ⟨"r2", "command", none, none, none⟩] ⟨1, none⟩
          (fun r _ => if r.id == "r1" then ⟨"fail", some "boom", []⟩
                      else ⟨"pending", none, []⟩)).status = "pending")
    ∧ (evaluateRules [⟨"r1", "command", none, none, none⟩,
          ⟨"r2", "command", none, none, none⟩] ⟨1, none⟩
        (fun r _ => if r.id == "r1" then ⟨"fail", some "boom", []⟩
                    else ⟨"pending", none, []⟩)).checks
      = [(⟨"r1", "command", none, none, none⟩ : JudgeRule),
          ⟨"r2", "command", none, none, none⟩].map
          (mkJudgeCheck ⟨1, none⟩
            (fun r _ => if r.id == "r1" then ⟨"fail", some "boom", []⟩
                        else ⟨"pending", none, []⟩)) :=
  c8_judge_aggregation
    [⟨"r1", "command", none, none, none⟩, ⟨"r2", "command", none, none, none⟩]
    ⟨1, none⟩
    (fun r _ => if r.id == "r1" then ⟨"fail", some "boom", []⟩ else ⟨"pending", none, []⟩)
    (by decide)

/-! ## Claim C4: the timed-out-with-output heuristic -/

/-- Claim C4: for an interactive shell execution (the model covers both the
detached one-shot and the multiplexed in-session read loops, whose
post-processing in pty.rs is identical), when the time budget is exhausted
before both markers are found (no exit code was recovered), the call is
reported as timed out — except that when the captured, sanitized output is
non-empty after trimming, the call is reported as success with exit code 0
and no timeout error. -/
theorem execOutcome_of_timedOut (r : ReadOutcome) (ht : r.timedOut = true)
    (hc : r.exitCode = none) :
    (trimCharsL r.output ≠ [] → (execOutcome r).ok = true
      ∧ (execOutcome r).exitCode = some 0 ∧ (execOutcome r).stderrMsg = none)
    ∧ (trimCharsL r.output = [] → (execOutcome r).ok = false
      ∧ (execOutcome r).exitCode = none
      ∧ (execOutcome r).stderrMsg = some "Timeout waiting for command completion.") := by
  unfold execOutcome
  dsimp only
  rw [ht, hc]
  constructor
  · intro hne
    rw [if_pos ⟨rfl, hne⟩]
    simp
  · intro he
    rw [if_neg (fun hcontra => hcontra.2 he)]
    simp

theorem c4_timeout_heuristic (startMarker endMarkerPfx : List Char) (maxBytes : Nat)
    (chunks : List (List Char))
    (hTimeout : (readUntilMarkers startMarker endMarkerPfx maxBytes chunks []).2 = none) :
    (trimCharsL (execInteractiveModel startMarker endMarkerPfx maxBytes chunks).stdout ≠ [] →
      (execInteractiveModel startMarker endMarkerPfx maxBytes chunks).ok = true
      ∧ (execInteractiveModel startMarker endMarkerPfx maxBytes chunks).exitCode = some 0
      ∧ (execInteractiveModel startMarker endMarkerPfx maxBytes chunks).stderrMsg = none)
    ∧ (trimCharsL (execInteractiveModel startMarker endMarkerPfx maxBytes chunks).stdout = [] →
      (execInteractiveModel startMarker endMarkerPfx maxBytes chunks).ok = false
      ∧ (execInteractiveModel startMarker endMarkerPfx maxBytes chunks).exitCode = none
      ∧ (execInteractiveModel startMarker endMarkerPfx maxBytes chunks).stderrMsg
          = some "Timeout waiting for command completion.") := by
  refine execOutcome_of_timedOut
    (finishRead (readUntilMarkers startMarker endMarkerPfx maxBytes chunks []) maxBytes)
    ?_ ?_
  · show ((readUntilMarkers startMarker endMarkerPfx maxBytes chunks []).2).isNone = true
    rw [hTimeout]
    rfl
  · show (readUntilMarkers startMarker endMarkerPfx maxBytes chunks []).2 = none
    exact hTimeout

/-- Claim C4 witness: a read that exhausts its input with the output "hi" and
no markers is reported as success with exit code 0 and no timeout error. -/
theorem c4_witness :
    (trimCharsL (execInteractiveModel ("__S__").data ("__E__:").data 100
        [("hi\n").data]).stdout ≠ [] →
      (execInteractiveModel ("__S__").data ("__E__:").data 100 [("hi\n").data]).ok = true
      ∧ (execInteractiveModel ("__S__").data ("__E__:").data 100
          [("hi\n").data]).exitCode = some 0
      ∧ (execInteractiveModel ("__S__").data ("__E__:").data 100
          [("hi\n").data]).stderrMsg = none)
    ∧ (trimCharsL (execInteractiveModel ("__S__").data ("__E__:").data 100
        [("hi\n").data]).stdout = [] →
      (execInteractiveModel ("__S__").data ("__E__:").data 100 [("hi\n").data]).ok = false
      ∧ (execInteractiveModel ("__S__").data ("__E__:").data 100
          [("hi\n").data]).exitCode = none
      ∧ (execInteractiveModel ("__S__").data ("__E__:").data 100
          [("hi\n").data]).stderrMsg = some "Timeout waiting for command completion.") :=
  c4_timeout_heuristic ("__S__").data ("__E__:").data 100 [("hi\n").data] (by rfl)

/-! ## Claim C10: the shared paused flag -/

/-- Claim C10: `pause` sets the shared paused flag unconditionally, whatever
the agent state; `resume`, `stop`, `continue` and a stop-phrase `user_input`
clear it, while `start` and a plain (non-stop-phrase) `user_input` leave it
untouched (so a plain user_input after a stray pause spawns a loop whose
every iteration sleeps at its top); while the flag is set, the run-loop
iteration head sleeps without reaching the Decision Engine or any dispatch. -/
theorem c10_pause_flag (k : Kernel) (req : KernelStartRequest) (rid cwd c cStop : String)
    (hplain : isStopCommand (strTrim c) = false) (hne : strTrim c ≠ "")
    (hstop : isStopCommand (strTrim cStop) = true) (hrun : k.running = false) :
    (kernelPause k).paused = true
    ∧ (kernelResume k).paused = false
    ∧ (kernelStop k).paused = false
    ∧ (kernelContinue k).paused = false
    ∧ kernelUserInput k cStop
      = .ok { k with
              state := { k.state with agent_state := .Finished, last_error := none }
              paused := false }
    ∧ (kernelUserInput k c).toOption.map Kernel.paused = some k.paused
    ∧ (kernelStart k req rid cwd).toOption.map Kernel.paused = some k.paused
    ∧ (k.paused = true → loopPhase k = .sleepPaused) := by
  refine ⟨rfl, rfl, rfl, rfl, ?_, ?_, ?_, ?_⟩
  · unfold kernelUserInput
    have : strTrim cStop ≠ "" := by
      intro h
      rw [h] at hstop
      exact absurd hstop (by decide)
    rw [if_neg this, if_pos hstop]
  · unfold kernelUserInput
    rw [if_neg hne, if_neg (by simp [hplain])]
    rfl
  · unfold kernelStart
    rw [if_neg (by simp [hrun])]
    rfl
  · intro hp
    unfold loopPhase
    rw [if_pos hp]

/-- A concrete idle kernel used by witnesses. -/
def idleKernel : Kernel :=
  { state := RunState.init "r0" "/w", paused := false, running := false }

/-- Claim C10 witness: the flag discipline applied to a concrete idle kernel
with the inputs "hello" and "stop". -/
theorem c10_witness :
    (kernelPause idleKernel).paused = true
    ∧ (kernelResume idleKernel).paused = false
    ∧ (kernelStop idleKernel).paused = false
    ∧ (kernelContinue idleKernel).paused = false
    ∧ kernelUserInput idleKernel "stop"
      = .ok { idleKernel with
              state := { idleKernel.state with
                agent_state := .Finished, last_error := none }
              paused := false }
    ∧ (kernelUserInput idleKernel "hello").toOption.map Kernel.paused = some idleKernel.paused
    ∧ (kernelStart idleKernel ⟨none, none, none⟩ "r1" "/w").toOption.map Kernel.paused
      = some idleKernel.paused
    ∧ (idleKernel.paused = true → loopPhase idleKernel = .sleepPaused) :=
  c10_pause_flag idleKernel ⟨none, none, none⟩ "r1" "/w" "hello" "stop"
    (by decide) (by decide) (by decide) rfl

/-! ## Claim C1: what `start` carries over -/

/-- A chat message of a previous run, used in concrete states. -/
def sampleMsg : ChatMessage :=
  { role := "user", content := "build the app" }

/-- A plan of a previous run, used in concrete states. -/
def samplePlan : Plan :=
  { version := 1, goal := "g",
    steps := [{ id := "p1", title := "t", status := "pending", done := false }] }

/-- A kernel whose previous run is suspended AwaitingUser (neither Finished
nor Error) with history and five used steps, and whose loop has exited. -/
def sampleAwaitingKernel : Kernel :=
  { state := { RunState.init "run0" "/w" with
      agent_state := .AwaitingUser
      messages := [sampleMsg]
      plan := some samplePlan
      budget := { max_steps := 8, used_steps := 5 } }
    paused := false
    running := false }

/-- Claim C1 counterexample: the previous run is AwaitingUser — not Finished
or Error — and `KernelStartRequest` has no field with which carry-over could
be requested, yet `start` succeeds and the new RunState still carries the
previous messages and plan (while resetting used_steps), where the claim
demands a clean state with empty messages and no plan. -/
theorem c1_counterexample :
    (kernelStart sampleAwaitingKernel ⟨none, none, none⟩ "run1" "/w").toOption.map
        (fun k => (k.state.messages, k.state.plan, k.state.budget.used_steps))
      = some ([sampleMsg], some samplePlan, 0)
    ∧ sampleAwaitingKernel.state.agent_state ≠ .Finished
    ∧ sampleAwaitingKernel.state.agent_state ≠ .Error
    ∧ [sampleMsg] ≠ ([] : List ChatMessage) := by
  decide

/-- Claim C1 (amended): every successful `start` — the only gate is the
atomic running flag — replaces the RunState but unconditionally carries the
previous run's plan, tasks and messages forward (regardless of how the
previous run ended, with no mechanism to request otherwise), and always
resets `used_steps` to 0 while entering Running. -/
theorem c1_start_carries_over (k : Kernel) (req : KernelStartRequest) (rid cwd : String)
    (hrun : k.running = false) :
    ∃ k2, kernelStart k req rid cwd = .ok k2
      ∧ k2.state.plan = k.state.plan
      ∧ k2.state.tasks = k.state.tasks
      ∧ k2.state.messages = k.state.messages
      ∧ k2.state.turn = k.state.turn
      ∧ k2.state.budget.used_steps = 0
      ∧ k2.state.agent_state = .Running := by
  unfold kernelStart
  rw [if_neg (by simp [hrun])]
  exact ⟨_, rfl, rfl, rfl, rfl, rfl, rfl, rfl⟩

/-- Claim C1 witness: the amended carry-over theorem applied to the concrete
suspended kernel. -/
theorem c1_witness :
    ∃ k2, kernelStart sampleAwaitingKernel ⟨none, none, none⟩ "run1" "/w" = .ok k2
      ∧ k2.state.plan = sampleAwaitingKernel.state.plan
      ∧ k2.state.tasks = sampleAwaitingKernel.state.tasks
      ∧ k2.state.messages = sampleAwaitingKernel.state.messages
      ∧ k2.state.turn = sampleAwaitingKernel.state.turn
      ∧ k2.state.budget.used_steps = 0
      ∧ k2.state.agent_state = .Running :=
  c1_start_carries_over sampleAwaitingKernel ⟨none, none, none⟩ "run1" "/w" rfl

/-! ## Claim C2: the used_steps discipline -/

theorem applyObservation_budget (st : RunState) (action : Action) (obs : Observation) :
    (applyObservation st action obs).budget = st.budget := by
  unfold applyObservation
  dsimp only
  repeat' split
  all_goals rfl

theorem processActions_budget (dispatch : Action → Except String Observation) :
    ∀ acts st, (processActions dispatch st acts).1.budget = st.budget := by
  intro acts
  induction acts with
  | nil => intro st; rfl
  | cons action rest ih =>
    intro st
    unfold processActions
    dsimp only
    split
    · rfl
    · split
      · rfl
      · split
        · rfl
        · rename_i obs hobs
          split
          · exact applyObservation_budget st action obs
          · rw [ih (applyObservation st action obs), applyObservation_budget]

/-- Claim C2 counterexample: with the run suspended AwaitingUser at
used_steps = 5, a plain `user_input` ("hello" — not a stop phrase, and
neither `start` nor the `continue` operation) resets used_steps to exactly 0,
where the claim says only `start` and `continue` ever reset it. -/
theorem c2_counterexample :
    sampleAwaitingKernel.state.budget.used_steps = 5
    ∧ isStopCommand "hello" = false
    ∧ (kernelUserInput sampleAwaitingKernel "hello").toOption.map
        (fun k => k.state.budget.used_steps) = some 0 := by
  decide

/-- Claim C2 (amended): `used_steps` is monotonically non-decreasing across
run-loop work while Running (a batch iteration either leaves it unchanged or
increments it by one, and the budget-stop transition leaves it unchanged); it
is reset to exactly 0 by `start`, by the AwaitingUser→Running transition of
`continue`, and also by a plain (non-stop-phrase) `user_input` received while
AwaitingUser; `pause`, `resume`, `stop`, stop-phrase `user_input`, `continue`
outside AwaitingUser and `user_input` outside AwaitingUser leave it
unchanged. -/
theorem c2_used_steps_discipline (k : Kernel) (req : KernelStartRequest)
    (rid cwd c cStop : String) (dispatch : Action → Except String Observation)
    (st : RunState) (acts : List Action)
    (hrun : k.running = false)
    (hplain : isStopCommand (strTrim c) = false) (hcne : strTrim c ≠ "")
    (hstop : isStopCommand (strTrim cStop) = true) :
    ((kernelStart k req rid cwd).toOption.map
        (fun k2 => k2.state.budget.used_steps) = some 0)
    ∧ (k.state.agent_state = .AwaitingUser →
        (kernelContinue k).state.budget.used_steps = 0)
    ∧ (k.state.agent_state ≠ .AwaitingUser →
        (kernelContinue k).state.budget.used_steps = k.state.budget.used_steps)
    ∧ (k.state.agent_state = .AwaitingUser →
        (kernelUserInput k c).toOption.map
          (fun k2 => k2.state.budget.used_steps) = some 0)
    ∧ (k.state.agent_state ≠ .AwaitingUser →
        (kernelUserInput k c).toOption.map
          (fun k2 => k2.state.budget.used_steps) = some k.state.budget.used_steps)
    ∧ ((kernelUserInput k cStop).toOption.map
        (fun k2 => k2.state.budget.used_steps) = some k.state.budget.used_steps)
    ∧ (kernelPause k).state.budget.used_steps = k.state.budget.used_steps
    ∧ (kernelResume k).state.budget.used_steps = k.state.budget.used_steps
    ∧ (kernelStop k).state.budget.used_steps = k.state.budget.used_steps
    ∧ st.budget.used_steps ≤ (runBatch dispatch st acts).budget.used_steps
    ∧ (runBatch dispatch st acts).budget.used_steps ≤ st.budget.used_steps + 1
    ∧ (budgetStopUpdate st).budget.used_steps = st.budget.used_steps := by
  refine ⟨?_, ?_, ?_, ?_, ?_, ?_, ?_, ?_, ?_, ?_, ?_, rfl⟩
  · unfold kernelStart
    rw [if_neg (by simp [hrun])]
    rfl
  · intro h
    unfold kernelContinue
    rw [if_pos h]
  · intro h
    unfold kernelContinue
    rw [if_neg h]
  · intro h
    unfold kernelUserInput
    rw [if_neg hcne, if_neg (by simp [hplain])]
    dsimp only
    rw [if_pos h]
    repeat' split
    all_goals rfl
  · intro h
    unfold kernelUserInput
    rw [if_neg hcne, if_neg (by simp [hplain])]
    dsimp only
    rw [if_neg h]
    repeat' split
    all_goals rfl
  · unfold kernelUserInput
    have hsne : strTrim cStop ≠ "" := by
      intro h
      rw [h] at hstop
      exact absurd hstop (by decide)
    rw [if_neg hsne, if_pos hstop]
    rfl
  · unfold kernelPause
    dsimp only
    split
    all_goals rfl
  · unfold kernelResume
    dsimp only
    split
    all_goals rfl
  · unfold kernelStop
    dsimp only
    split
    all_goals rfl
  · unfold runBatch
    dsimp only
    split
    · rw [processActions_budget]
    · unfold bumpUsedSteps
      dsimp only
      rw [processActions_budget]
      exact Nat.le_succ _
  · unfold runBatch
    dsimp only
    split
    · rw [processActions_budget]
      exact Nat.le_succ _
    · unfold bumpUsedSteps
      dsimp only
      rw [processActions_budget]

/-- Claim C2 witness: the amended discipline applied to the concrete
suspended kernel, a trivial dispatcher and a one-action batch. -/
theorem c2_witness :
    ((kernelStart sampleAwaitingKernel ⟨none, none, none⟩ "run1" "/w").toOption.map
        (fun k2 => k2.state.budget.used_steps) = some 0)
    ∧ (sampleAwaitingKernel.state.agent_state = .AwaitingUser →
        (kernelContinue sampleAwaitingKernel).state.budget.used_steps = 0)
    ∧ (sampleAwaitingKernel.state.agent_state ≠ .AwaitingUser →
        (kernelContinue sampleAwaitingKernel).state.budget.used_steps
          = sampleAwaitingKernel.state.budget.used_steps)
    ∧ (sampleAwaitingKernel.state.agent_state = .AwaitingUser →
        (kernelUserInput sampleAwaitingKernel "hello").toOption.map
          (fun k2 => k2.state.budget.used_steps) = some 0)
    ∧ (sampleAwaitingKernel.state.agent_state ≠ .AwaitingUser →
        (kernelUserInput sampleAwaitingKernel "hello").toOption.map
          (fun k2 => k2.state.budget.used_steps)
          = some sampleAwaitingKernel.state.budget.used_steps)
    ∧ ((kernelUserInput sampleAwaitingKernel "stop").toOption.map
        (fun k2 => k2.state.budget.used_steps)
        = some sampleAwaitingKernel.state.budget.used_steps)
    ∧ (kernelPause sampleAwaitingKernel).state.budget.used_steps
      = sampleAwaitingKernel.state.budget.used_steps
    ∧ (kernelResume sampleAwaitingKernel).state.budget.used_steps
      = sampleAwaitingKernel.state.budget.used_steps
    ∧ (kernelStop sampleAwaitingKernel).state.budget.used_steps
      = sampleAwaitingKernel.state.budget.used_steps
    ∧ sampleAwaitingKernel.state.budget.used_steps
      ≤ (runBatch (fun _ => .error "no dispatch") sampleAwaitingKernel.state
          [.GitStatus "g1"]).budget.used_steps
    ∧ (runBatch (fun _ => .error "no dispatch") sampleAwaitingKernel.state
        [.GitStatus "g1"]).budget.used_steps
      ≤ sampleAwaitingKernel.state.budget.used_steps + 1
    ∧ (budgetStopUpdate sampleAwaitingKernel.state).budget.used_steps
      = sampleAwaitingKernel.state.budget.used_steps :=
  c2_used_steps_discipline sampleAwaitingKernel ⟨none, none, none⟩ "run1" "/w"
    "hello" "stop" (fun _ => .error "no dispatch") sampleAwaitingKernel.state
    [.GitStatus "g1"] rfl (by decide) (by decide) (by decide)

/-! ## Claim C5: a UserAsk halts the batch -/

theorem applyObservation_agent_state (st : RunState) (action : Action) (obs : Observation)
    (hok : obs.ok = true) (hru : obs.requires_user = false) :
    (applyObservation st action obs).agent_state = st.agent_state := by
  unfold applyObservation
  dsimp only
  repeat' split
  all_goals simp_all

theorem processActions_cons_userAsk (dispatch : Action → Except String Observation)
    (st : RunState) (action : Action) (rest : List Action)
    (hrun : st.agent_state = .Running) (hask : action.isUserAsk = true) :
    processActions dispatch st (action :: rest)
      = ({ st with agent_state := .AwaitingUser }, [], true) := by
  unfold processActions
  dsimp only
  rw [if_neg (by simp [hrun]), if_pos hask]

theorem processActions_cons_ok (dispatch : Action → Except String Observation)
    (st : RunState) (action : Action) (rest : List Action) (obs : Observation)
    (hrun : st.agent_state = .Running) (haskF : action.isUserAsk = false)
    (hdisp : dispatch action = .ok obs) (hru : obs.requires_user = false) :
    processActions dispatch st (action :: rest)
      = ((processActions dispatch (applyObservation st action obs) rest).1,
         action :: (processActions dispatch (applyObservation st action obs) rest).2.1,
         (processActions dispatch (applyObservation st action obs) rest).2.2) := by
  simp only [processActions]
  rw [if_neg (by simp [hrun]), if_neg (by simp [haskF]), hdisp]
  dsimp only
  rw [if_neg (by simp [hru])]

/-- Claim C5: when a decided batch holds a UserAsk at position `i` and the
actions before it dispatch successfully without requiring the user, the
action loop dispatches only a prefix of the batch of length at most `i`
(nothing at or after the UserAsk is dispatched), moves the run to
AwaitingUser, and breaks out of the whole run loop. -/
theorem c5_user_ask_halts (dispatch : Action → Except String Observation)
    (st : RunState) (acts : List Action) (i : Nat) (hi : i < acts.length)
    (hask : (acts.get ⟨i, hi⟩).isUserAsk = true)
    (hgood : ∀ a, a.isUserAsk = false →
      ∃ obs, dispatch a = .ok obs ∧ obs.ok = true ∧ obs.requires_user = false)
    (hrun : st.agent_state = .Running) :
    (processActions dispatch st acts).2.1.length ≤ i
    ∧ (processActions dispatch st acts).2.1
        = acts.take (processActions dispatch st acts).2.1.length
    ∧ (processActions dispatch st acts).1.agent_state = .AwaitingUser
    ∧ (processActions dispatch st acts).2.2 = true := by
  induction acts generalizing st i with
  | nil => exact absurd hi (by simp)
  | cons action rest ih =>
    by_cases haskA : action.isUserAsk = true
    · rw [processActions_cons_userAsk dispatch st action rest hrun haskA]
      exact ⟨Nat.zero_le i, rfl, rfl, rfl⟩
    · have haskF : action.isUserAsk = false := by
        cases h : action.isUserAsk
        · rfl
        · exact absurd h haskA
      obtain ⟨obs, hdisp, hok, hru⟩ := hgood action haskF
      cases i with
      | zero => exact absurd hask haskA
      | succ i2 =>
        have hi2 : i2 < rest.length := Nat.lt_of_succ_lt_succ (by simpa using hi)
        have hask2 : (rest.get ⟨i2, hi2⟩).isUserAsk = true := hask
        have hst2 : (applyObservation st action obs).agent_state = .Running := by
          rw [applyObservation_agent_state st action obs hok hru, hrun]
        obtain ⟨ih1, ih2, ih3, ih4⟩ :=
          ih (applyObservation st action obs) i2 hi2 hask2 hst2
        rw [processActions_cons_ok dispatch st action rest obs hrun haskF hdisp hru]
        refine ⟨?_, ?_, ih3, ih4⟩
        · simpa using Nat.succ_le_succ ih1
        · simp only [List.length_cons, List.take_succ_cons]
          rw [← ih2]

/-- A successful observation requiring no user, used by witnesses. -/
def okObs : Observation :=
  { ok := true, summary := "ok", exit_code := none, artifacts := none,
    raw := none, requires_user := false }

/-- A Running run state, used by witnesses. -/
def runningState : RunState :=
  { RunState.init "run0" "/w" with agent_state := .Running }

/-- A batch with a UserAsk in the middle, used by the C5 witness. -/
def c5Acts : List Action :=
  [.GitStatus "g1", .UserAsk "a1" "continue?", .FsRead "r1" "f.txt"]

/-- The batch dispatcher used by the C5 witness. -/
def c5Dispatch : Action → Except String Observation := fun _ => .ok okObs

/-- Claim C5 witness: the halting theorem applied to a concrete three-action
batch whose second action is a UserAsk. -/
theorem c5_witness :
    (processActions c5Dispatch runningState c5Acts).2.1.length ≤ 1
    ∧ (processActions c5Dispatch runningState c5Acts).2.1
        = c5Acts.take (processActions c5Dispatch runningState c5Acts).2.1.length
    ∧ (processActions c5Dispatch runningState c5Acts).1.agent_state = .AwaitingUser
    ∧ (processActions c5Dispatch runningState c5Acts).2.2 = true :=
  c5_user_ask_halts c5Dispatch runningState c5Acts 1 (by decide) (by rfl)
    (fun a _ => ⟨okObs, rfl, rfl, rfl⟩) rfl

/-! ## Claim C6: sandbox path resolution -/

/-- The relative input path "../../etc/passwd" of the claim. -/
def up2EtcPasswd : InputPath :=
  { absolute := false, comps := ["..", "..", "etc", "passwd"] }

/-- The relative input path "sub/new.txt" of the claim. -/
def subNewTxt : InputPath :=
  { absolute := false, comps := ["sub", "new.txt"] }

theorem lexNorm_append (l t : List String) :
    lexicalNormalize (l ++ t) = t.foldl lexStep (lexicalNormalize l) := by
  unfold lexicalNormalize
  exact List.foldl_append lexStep [] l t

theorem foldl_lexStep_clean (l : List String) (h : ∀ x ∈ l, x ≠ "." ∧ x ≠ "..") :
    ∀ acc, l.foldl lexStep acc = acc ++ l := by
  induction l with
  | nil => intro acc; simp
  | cons c rest ih =>
    intro acc
    have hc := h c (by simp)
    simp only [List.foldl_cons]
    rw [show lexStep acc c = acc ++ [c] from by
      unfold lexStep
      rw [if_neg hc.1, if_neg hc.2]]
    rw [ih (fun x hx => h x (by simp [hx])) (acc ++ [c])]
    simp

theorem lexStep_clean_preserved (acc : List String) (c : String)
    (h : ∀ x ∈ acc, x ≠ "." ∧ x ≠ "..") :
    ∀ x ∈ lexStep acc c, x ≠ "." ∧ x ≠ ".." := by
  unfold lexStep
  split
  · exact h
  · split
    · intro x hx
      exact h x (List.dropLast_subset _ hx)
    · intro x hx
      rcases List.mem_append.mp hx with h1 | h1
      · exact h x h1
      · rw [List.mem_singleton.mp h1]
        constructor
        · assumption
        · assumption

theorem foldl_lexStep_clean_out (l : List String) :
    ∀ acc, (∀ x ∈ acc, x ≠ "." ∧ x ≠ "..") →
      ∀ x ∈ l.foldl lexStep acc, x ≠ "." ∧ x ≠ ".." := by
  induction l with
  | nil => intro acc h; simpa using h
  | cons c rest ih =>
    intro acc h
    simp only [List.foldl_cons]
    exact ih _ (lexStep_clean_preserved acc c h)

theorem lexNorm_clean (l : List String) :
    ∀ x ∈ lexicalNormalize l, x ≠ "." ∧ x ≠ ".." :=
  foldl_lexStep_clean_out l [] (by simp)

theorem lexNorm_of_clean (l : List String) (h : ∀ x ∈ l, x ≠ "." ∧ x ≠ "..") :
    lexicalNormalize l = l := by
  unfold lexicalNormalize
  rw [foldl_lexStep_clean l h []]
  simp

theorem lexNorm_idem (l : List String) :
    lexicalNormalize (lexicalNormalize l) = lexicalNormalize l :=
  lexNorm_of_clean _ (lexNorm_clean l)

theorem lexNorm_up2 (r0 : List String) (a b : String)
    (hnorm : lexicalNormalize (r0 ++ [a, b]) = r0 ++ [a, b]) :
    lexicalNormalize ((r0 ++ [a, b]) ++ ["..", "..", "etc", "passwd"])
      = r0 ++ ["etc", "passwd"] := by
  rw [lexNorm_append, hnorm]
  simp only [List.foldl_cons, List.foldl_nil]
  rw [show lexStep (r0 ++ [a, b]) ".." = r0 ++ [a] from by
    unfold lexStep
    rw [if_neg (by decide), if_pos rfl,
        show r0 ++ [a, b] = (r0 ++ [a]) ++ [b] from by simp]
    exact List.dropLast_concat]
  rw [show lexStep (r0 ++ [a]) ".." = r0 from by
    unfold lexStep
    rw [if_neg (by decide), if_pos rfl]
    exact List.dropLast_concat]
  rw [show lexStep r0 "etc" = r0 ++ ["etc"] from by
    unfold lexStep
    rw [if_neg (by decide), if_neg (by decide)]]
  rw [show lexStep (r0 ++ ["etc"]) "passwd" = (r0 ++ ["etc"]) ++ ["passwd"] from by
    unfold lexStep
    rw [if_neg (by decide), if_neg (by decide)]]
  simp

theorem lexNorm_sub (root : List String)
    (hnorm : lexicalNormalize root = root) :
    lexicalNormalize (root ++ ["sub", "new.txt"]) = root ++ ["sub", "new.txt"] := by
  rw [lexNorm_append, hnorm]
  simp only [List.foldl_cons, List.foldl_nil]
  rw [show lexStep root "sub" = root ++ ["sub"] from by
    unfold lexStep
    rw [if_neg (by decide), if_neg (by decide)]]
  rw [show lexStep (root ++ ["sub"]) "new.txt" = (root ++ ["sub"]) ++ ["new.txt"] from by
    unfold lexStep
    rw [if_neg (by decide), if_neg (by decide)]]
  simp

theorem isPrefixOf_append_self (l t : List String) : l.isPrefixOf (l ++ t) = true := by
  induction l with
  | nil => simp [List.isPrefixOf]
  | cons c rest ih => simp [List.isPrefixOf, ih]

theorem isPrefixOf_append_both (r u v : List String) :
    (r ++ u).isPrefixOf (r ++ v) = u.isPrefixOf v := by
  induction r with
  | nil => rfl
  | cons c rest ih => simp [List.isPrefixOf, ih]

theorem two_isPrefixOf_two_false (a b x y : String) (h : ¬(a = x ∧ b = y)) :
    ([a, b].isPrefixOf [x, y]) = false := by
  by_cases ha : a = x <;> by_cases hb : b = y
  · exact absurd ⟨ha, hb⟩ h
  all_goals simp [List.isPrefixOf, beq_iff_eq, ha, hb]

theorem canonicalizeOr_of_norm (fs : Fs) (root : List String)
    (hnorm : lexicalNormalize root = root) : canonicalizeOr fs root = root := by
  unfold canonicalizeOr canonicalize
  split
  · simp [hnorm]
  · rfl

/-- The filesystem of the C6 counterexample: `/`, `/etc` and `/etc/passwd`
exist. -/
def c6RootFs : Fs := [[], ["etc"], ["etc", "passwd"]]

/-- Claim C6 counterexample: with the workspace root `/` (the empty component
list) on a filesystem where /etc/passwd exists, resolving "../../etc/passwd"
does not fail at all — read resolution canonicalizes it to /etc/passwd, which
is inside the root, and write resolution accepts it too — so "for every
workspace root, resolving ../../etc/passwd fails with a workspace-escape
error" is false. -/
theorem c6_counterexample :
    resolvePath c6RootFs [] up2EtcPasswd = .ok ["etc", "passwd"]
    ∧ resolvePathForWrite c6RootFs [] up2EtcPasswd
      = .ok ["..", "..", "etc", "passwd"] := by
  constructor
  · rfl
  · rfl

/-- Claim C6 (amended): for every workspace root of depth at least two (root
`r0 ++ [a, b]`, in normalized form) whose last two components are not
etc/passwd — so that `../../etc/passwd` really leaves the root — write
resolution of "../../etc/passwd" fails with the workspace-escape error, and
read resolution fails too: with the escape error when the canonical target
exists, with the path-not-found error otherwise.  Under the same root, when
"sub/new.txt" does not exist, write resolution of "sub/new.txt" succeeds with
a root-confined path while read resolution of the same path fails. -/
theorem c6_sandbox (fs : Fs) (r0 : List String) (a b : String)
    (hnorm : lexicalNormalize (r0 ++ [a, b]) = r0 ++ [a, b])
    (htail : ¬(a = "etc" ∧ b = "passwd"))
    (hnew : fs.contains ((r0 ++ [a, b]) ++ ["sub", "new.txt"]) = false) :
    resolvePathForWrite fs (r0 ++ [a, b]) up2EtcPasswd
      = .error "Path escapes workspace root"
    ∧ (fs.contains (r0 ++ ["etc", "passwd"]) = true →
        resolvePath fs (r0 ++ [a, b]) up2EtcPasswd
          = .error "Path escapes workspace root")
    ∧ (fs.contains (r0 ++ ["etc", "passwd"]) = false →
        resolvePath fs (r0 ++ [a, b]) up2EtcPasswd = .error "Path not found")
    ∧ resolvePathForWrite fs (r0 ++ [a, b]) subNewTxt
      = .ok ((r0 ++ [a, b]) ++ ["sub", "new.txt"])
    ∧ resolvePath fs (r0 ++ [a, b]) subNewTxt = .error "Path not found"
    ∧ (r0 ++ [a, b]).isPrefixOf ((r0 ++ [a, b]) ++ ["sub", "new.txt"]) = true := by
  have hcand : resolveCandidate (r0 ++ [a, b]) up2EtcPasswd
      = (r0 ++ [a, b]) ++ ["..", "..", "etc", "passwd"] := rfl
  have hup2norm := lexNorm_up2 r0 a b hnorm
  have hup2norm2 : lexicalNormalize (r0 ++ ["etc", "passwd"]) = r0 ++ ["etc", "passwd"] := by
    rw [← hup2norm]
    exact lexNorm_idem _
  have hrootOr := canonicalizeOr_of_norm fs (r0 ++ [a, b]) hnorm
  have hnopfx : (r0 ++ [a, b]).isPrefixOf (r0 ++ ["etc", "passwd"]) = false := by
    rw [isPrefixOf_append_both]
    exact two_isPrefixOf_two_false a b "etc" "passwd" htail
  have hexists : fsExists fs ((r0 ++ [a, b]) ++ ["..", "..", "etc", "passwd"])
      = fs.contains (r0 ++ ["etc", "passwd"]) := by
    unfold fsExists
    rw [hup2norm]
  have hsubnorm : lexicalNormalize ((r0 ++ [a, b]) ++ ["sub", "new.txt"])
      = (r0 ++ [a, b]) ++ ["sub", "new.txt"] := lexNorm_sub (r0 ++ [a, b]) hnorm
  have hsubexists : fsExists fs ((r0 ++ [a, b]) ++ ["sub", "new.txt"]) = false := by
    unfold fsExists
    rw [hsubnorm]
    exact hnew
  refine ⟨?_, ?_, ?_, ?_, ?_, isPrefixOf_append_self _ _⟩
  · unfold resolvePathForWrite
    rw [hcand]
    try dsimp only
    rw [hexists]
    cases hmem : fs.contains (r0 ++ ["etc", "passwd"]) with
    | true =>
      rw [if_pos rfl]
      unfold canonicalize fsExists
      try dsimp only
      rw [hup2norm, hmem]
      rw [if_pos rfl]
      try dsimp only
      unfold ensureWithinRoot
      rw [hrootOr]
      try dsimp only
      rw [if_neg (by simp [hnopfx])]
    | false =>
      rw [if_neg (by simp)]
      unfold ensureWithinRootLexical
      rw [hrootOr, hnorm, hup2norm, hup2norm2]
      try dsimp only
      rw [if_neg (by simp [hnopfx])]
  · intro hmem
    unfold resolvePath
    rw [hcand]
    try dsimp only
    unfold canonicalize fsExists
    try dsimp only
    rw [hup2norm, hmem]
    rw [if_pos rfl]
    try dsimp only
    unfold ensureWithinRoot
    rw [hrootOr]
    try dsimp only
    rw [if_neg (by simp [hnopfx])]
  · intro hmem
    unfold resolvePath
    rw [hcand]
    try dsimp only
    unfold canonicalize fsExists
    try dsimp only
    rw [hup2norm, hmem]
    rw [if_neg (by simp)]
  · unfold resolvePathForWrite
    rw [show resolveCandidate (r0 ++ [a, b]) subNewTxt
        = (r0 ++ [a, b]) ++ ["sub", "new.txt"] from rfl]
    try dsimp only
    rw [hsubexists]
    rw [if_neg (by simp)]
    unfold ensureWithinRootLexical
    rw [hrootOr, hnorm, hsubnorm, hsubnorm]
    try dsimp only
    rw [if_pos (isPrefixOf_append_self (r0 ++ [a, b]) ["sub", "new.txt"])]
  · unfold resolvePath
    rw [show resolveCandidate (r0 ++ [a, b]) subNewTxt
        = (r0 ++ [a, b]) ++ ["sub", "new.txt"] from rfl]
    try dsimp only
    unfold canonicalize
    try dsimp only
    rw [hsubexists]
    rw [if_neg (by simp)]

/-- Claim C6 witness: the amended sandbox theorem at the root /home/user on a
filesystem where /etc/passwd and /home/user/sub exist but
/home/user/sub/new.txt does not. -/
theorem c6_witness :
    resolvePathForWrite [[], ["etc"], ["etc", "passwd"], ["home"], ["home", "user"],
        ["home", "user", "sub"]] (["home"] ++ ["user"]) up2EtcPasswd
      = .error "Path escapes workspace root"
    ∧ (([[], ["etc"], ["etc", "passwd"], ["home"], ["home", "user"],
        ["home", "user", "sub"]] : Fs).contains ([] ++ ["etc", "passwd"]) = true →
        resolvePath [[], ["etc"], ["etc", "passwd"], ["home"], ["home", "user"],
            ["home", "user", "sub"]] (["home"] ++ ["user"]) up2EtcPasswd
          = .error "Path escapes workspace root") := by
  have h := c6_sandbox
    [[], ["etc"], ["etc", "passwd"], ["home"], ["home", "user"], ["home", "user", "sub"]]
    [] "home" "user" (by decide) (by decide) (by decide)
  exact ⟨h.1, fun _ => h.2.1 (by decide)⟩

/-! ## Claim C9: freshness and distinctness of generated action ids -/

/-- String append acts as list append on the underlying characters. -/
theorem strData_append (s t : String) : (s ++ t).data = s.data ++ t.data := by
  cases s
  cases t
  rfl

/-- Strings with equal character lists are equal. -/
theorem strExt {s t : String} (h : s.data = t.data) : s = t := by
  cases s
  cases t
  exact congrArg String.mk h

/-- Splitting a character list at its first underscore is unambiguous when
neither left part contains an underscore. -/
theorem underscore_split : ∀ {a b u v : List Char}, Char.ofNat 95 ∉ a →
    Char.ofNat 95 ∉ b → a ++ Char.ofNat 95 :: u = b ++ Char.ofNat 95 :: v →
    a = b ∧ u = v := by
  intro a
  induction a with
  | nil =>
    intro b u v _ hb h
    cases b with
    | nil =>
      refine ⟨rfl, ?_⟩
      injection h
    | cons c bs =>
      injection h with h1 h2
      apply absurd _ hb
      rw [h1]
      exact List.mem_cons_self c bs
  | cons c as ih =>
    intro b u v ha hb h
    cases b with
    | nil =>
      injection h with h1 h2
      apply absurd _ ha
      rw [← h1]
      exact List.mem_cons_self c as
    | cons d bs =>
      injection h with h1 h2
      have ha2 : Char.ofNat 95 ∉ as := fun hx => ha (List.mem_cons_of_mem c hx)
      have hb2 : Char.ofNat 95 ∉ bs := fun hx => hb (List.mem_cons_of_mem d hx)
      obtain ⟨e1, e2⟩ := ih ha2 hb2 h2
      exact ⟨by rw [h1, e1], e2⟩

/-- The characters of a generated id: tag, underscore, uuid. -/
theorem makeId_data (u : Nat → String) (t : String) (n : Nat) :
    (makeId u t n).data = t.data ++ Char.ofNat 95 :: (u n).data := by
  unfold makeId
  rw [strData_append, strData_append, List.append_assoc]
  rfl

/-- Two generated ids with underscore-free tags can only coincide when they
were generated at the same counter value (for an injective uuid supply). -/
theorem makeId_inj_counter {u : Nat → String} (hinj : Function.Injective u)
    {t1 t2 : String} {k1 k2 : Nat}
    (h1 : Char.ofNat 95 ∉ t1.data) (h2 : Char.ofNat 95 ∉ t2.data)
    (h : makeId u t1 k1 = makeId u t2 k2) : k1 = k2 := by
  have hd := congrArg String.data h
  rw [makeId_data, makeId_data] at hd
  obtain ⟨-, h3⟩ := underscore_split h1 h2 hd
  exact hinj (strExt h3)

/-- A generated id is never the empty string. -/
theorem makeId_ne_empty (u : Nat → String) (t : String) (n : Nat) :
    makeId u t n ≠ "" := by
  intro h
  have hd := congrArg String.data h
  rw [makeId_data] at hd
  rw [show ("" : String).data = ([] : List Char) from rfl] at hd
  simp at hd

/-- No id tag produced by `action_id_prefix` contains an underscore. -/
theorem actionIdTag_no_underscore (ty : String) :
    Char.ofNat 95 ∉ (actionIdTag ty).data := by
  unfold actionIdTag
  repeat' split
  all_goals decide

/-- kernel.rs `parse_plan_step` never decreases the uuid counter. -/
theorem parsePlanStep_mono (u : Nat → String) (v : Json) (n : Nat) :
    n ≤ (parsePlanStep u v n).2 := by
  unfold parsePlanStep
  repeat' (first | split | dsimp only)
  all_goals omega

/-- kernel.rs `parse_plan_steps` on an array never decreases the uuid counter. -/
theorem parsePlanStepsList_mono (u : Nat → String) :
    ∀ (items : List Json) (n : Nat), n ≤ (parsePlanStepsList u items n).2 := by
  intro items
  induction items with
  | nil => intro n; exact Nat.le_refl n
  | cons item rest ih =>
    intro n
    have h1 := parsePlanStep_mono u item n
    have h2 := ih (parsePlanStep u item n).2
    simp only [parsePlanStepsList]
    exact Nat.le_trans h1 h2

/-- kernel.rs `parse_plan_steps` never decreases the uuid counter. -/
theorem parsePlanSteps_mono (u : Nat → String) (v : Json) (n : Nat) :
    n ≤ (parsePlanSteps u v n).2 := by
  unfold parsePlanSteps
  repeat' (first | split | dsimp only)
  all_goals first
    | omega
    | exact parsePlanStepsList_mono u _ n

/-- kernel.rs `parse_plan_value` never decreases the uuid counter. -/
theorem parsePlanValue_mono {u : Nat → String} {v : Json} {g : Option String}
    {n : Nat} {res : Plan × Nat}
    (h : parsePlanValue u v g n = .ok res) : n ≤ res.2 := by
  unfold parsePlanValue at h
  repeat' (first | split at h | dsimp only at h)
  all_goals first
    | exact Except.noConfusion h
    | (injection h with hp; subst hp; exact parsePlanSteps_mono u _ n)

/-- kernel.rs `parse_task_entry` never decreases the uuid counter. -/
theorem parseTaskEntry_mono (u : Nat → String) (v : Json) (n : Nat) :
    n ≤ (parseTaskEntry u v n).2 := by
  unfold parseTaskEntry
  repeat' (first | split | dsimp only)
  all_goals omega

/-- kernel.rs `parse_task_items` on an array never decreases the uuid counter. -/
theorem parseTaskItemsList_mono (u : Nat → String) :
    ∀ (entries : List Json) (n : Nat), n ≤ (parseTaskItemsList u entries n).2 := by
  intro entries
  induction entries with
  | nil => intro n; exact Nat.le_refl n
  | cons entry rest ih =>
    intro n
    have h1 := parseTaskEntry_mono u entry n
    have h2 := ih (parseTaskEntry u entry n).2
    simp only [parseTaskItemsList]
    exact Nat.le_trans h1 h2

/-- kernel.rs `parse_task_items` never decreases the uuid counter. -/
theorem parseTaskItems_mono (u : Nat → String) (v : Json) (n : Nat) :
    n ≤ (parseTaskItems u v n).2 := by
  unfold parseTaskItems
  repeat' (first | split | dsimp only)
  all_goals first
    | omega
    | exact parseTaskItemsList_mono u _ n

/-- kernel.rs `parse_task_list` never decreases the uuid counter. -/
theorem parseTaskList_mono {u : Nat → String} {v : Json} {n : Nat}
    {res : TaskList × Nat}
    (h : parseTaskList u v n = .ok res) : n ≤ res.2 := by
  unfold parseTaskList at h
  repeat' (first | split at h | dsimp only at h)
  all_goals first
    | exact Except.noConfusion h
    | (injection h with hp; subst hp; exact parseTaskItems_mono u _ n)

/-- Whatever arm of the dispatch succeeds, the parsed action carries exactly
the resolved id and the counter never decreases. -/
theorem parseActionBody_spec {u : Nat → String} {g : Option String} {v : Json}
    {ty i2 : String} {n1 : Nat} {res : Action × Nat}
    (h : parseActionBody u g v ty i2 n1 = .ok res) :
    n1 ≤ res.2 ∧ actionIdOf res.1 = i2 := by
  unfold parseActionBody at h
  by_cases h1 : ty = "terminal.exec"
  · rw [if_pos h1] at h
    repeat' (first | split at h | dsimp only at h)
    all_goals first
      | exact Except.noConfusion h
      | (injection h with hp
         subst hp
         refine ⟨?_, rfl⟩
         first
          | exact Nat.le_refl n1
          | exact parsePlanValue_mono (by assumption)
          | exact parseTaskList_mono (by assumption))
  · rw [if_neg h1] at h
    by_cases h2 : ty = "terminal.run"
    · rw [if_pos h2] at h
      repeat' (first | split at h | dsimp only at h)
      all_goals first
        | exact Except.noConfusion h
        | (injection h with hp
           subst hp
           refine ⟨?_, rfl⟩
           first
            | exact Nat.le_refl n1
            | exact parsePlanValue_mono (by assumption)
            | exact parseTaskList_mono (by assumption))
    · rw [if_neg h2] at h
      by_cases h3 : ty = "fs.read"
      · rw [if_pos h3] at h
        repeat' (first | split at h | dsimp only at h)
        all_goals first
          | exact Except.noConfusion h
          | (injection h with hp
             subst hp
             refine ⟨?_, rfl⟩
             first
              | exact Nat.le_refl n1
              | exact parsePlanValue_mono (by assumption)
              | exact parseTaskList_mono (by assumption))
      · rw [if_neg h3] at h
        by_cases h4 : ty = "fs.write"
        · rw [if_pos h4] at h
          repeat' (first | split at h | dsimp only at h)
          all_goals first
            | exact Except.noConfusion h
            | (injection h with hp
               subst hp
               refine ⟨?_, rfl⟩
               first
                | exact Nat.le_refl n1
                | exact parsePlanValue_mono (by assumption)
                | exact parseTaskList_mono (by assumption))
        · rw [if_neg h4] at h
          by_cases h5 : ty = "fs.search"
          · rw [if_pos h5] at h
            repeat' (first | split at h | dsimp only at h)
            all_goals first
              | exact Except.noConfusion h
              | (injection h with hp
                 subst hp
                 refine ⟨?_, rfl⟩
                 first
                  | exact Nat.le_refl n1
                  | exact parsePlanValue_mono (by assumption)
                  | exact parseTaskList_mono (by assumption))
          · rw [if_neg h5] at h
            by_cases h6 : ty = "git.status"
            · rw [if_pos h6] at h
              repeat' (first | split at h | dsimp only at h)
              all_goals first
                | exact Except.noConfusion h
                | (injection h with hp
                   subst hp
                   refine ⟨?_, rfl⟩
                   first
                    | exact Nat.le_refl n1
                    | exact parsePlanValue_mono (by assumption)
                    | exact parseTaskList_mono (by assumption))
            · rw [if_neg h6] at h
              by_cases h7 : ty = "git.diff"
              · rw [if_pos h7] at h
                repeat' (first | split at h | dsimp only at h)
                all_goals first
                  | exact Except.noConfusion h
                  | (injection h with hp
                     subst hp
                     refine ⟨?_, rfl⟩
                     first
                      | exact Nat.le_refl n1
                      | exact parsePlanValue_mono (by assumption)
                      | exact parseTaskList_mono (by assumption))
              · rw [if_neg h7] at h
                by_cases h8 : ty = "tests.run"
                · rw [if_pos h8] at h
                  repeat' (first | split at h | dsimp only at h)
                  all_goals first
                    | exact Except.noConfusion h
                    | (injection h with hp
                       subst hp
                       refine ⟨?_, rfl⟩
                       first
                        | exact Nat.le_refl n1
                        | exact parsePlanValue_mono (by assumption)
                        | exact parseTaskList_mono (by assumption))
                · rw [if_neg h8] at h
                  by_cases h9 : ty = "plan.update"
                  · rw [if_pos h9] at h
                    repeat' (first | split at h | dsimp only at h)
                    all_goals first
                      | exact Except.noConfusion h
                      | (injection h with hp
                         subst hp
                         refine ⟨?_, rfl⟩
                         first
                          | exact Nat.le_refl n1
                          | exact parsePlanValue_mono (by assumption)
                          | exact parseTaskList_mono (by assumption))
                  · rw [if_neg h9] at h
                    by_cases h10 : ty = "task.update"
                    · rw [if_pos h10] at h
                      repeat' (first | split at h | dsimp only at h)
                      all_goals first
                        | exact Except.noConfusion h
                        | (injection h with hp
                           subst hp
                           refine ⟨?_, rfl⟩
                           first
                            | exact Nat.le_refl n1
                            | exact parsePlanValue_mono (by assumption)
                            | exact parseTaskList_mono (by assumption))
                    · rw [if_neg h10] at h
                      by_cases h11 : ty = "user.ask"
                      · rw [if_pos h11] at h
                        repeat' (first | split at h | dsimp only at h)
                        all_goals first
                          | exact Except.noConfusion h
                          | (injection h with hp
                             subst hp
                             refine ⟨?_, rfl⟩
                             first
                              | exact Nat.le_refl n1
                              | exact parsePlanValue_mono (by assumption)
                              | exact parseTaskList_mono (by assumption))
                      · rw [if_neg h11] at h
                        exact Except.noConfusion h

/-- kernel.rs `parse_action` on success: the counter never decreases; when the JSON
object has no usable explicit id, the action's id is freshly generated from
the counter (which strictly advances); an explicit id is kept verbatim. -/
theorem parseAction_spec {u : Nat → String} {g : Option String} {v : Json}
    {n : Nat} {res : Action × Nat}
    (h : parseAction u g v n = .ok res) :
    n ≤ res.2
    ∧ (explicitId v = none →
        actionIdOf res.1 = makeId u (actionIdTag (typeStrOf v)) n ∧ n + 1 ≤ res.2)
    ∧ (∀ s, explicitId v = some s → actionIdOf res.1 = s) := by
  cases v with
  | obj fields =>
    unfold parseAction at h
    dsimp only at h
    cases hty : jAsStr (jGet (Json.obj fields) "type") with
    | none =>
      rw [hty] at h
      exact Except.noConfusion h
    | some ty =>
      rw [hty] at h
      dsimp only at h
      have htys : typeStrOf (Json.obj fields) = ty := by
        unfold typeStrOf
        rw [hty]
        rfl
      cases hid : coerceString (jGet (Json.obj fields) "id") with
      | some s =>
        rw [hid] at h
        dsimp only at h
        obtain ⟨hmono, hido⟩ := parseActionBody_spec h
        have hexp : explicitId (Json.obj fields) = some s := hid
        refine ⟨hmono, ?_, ?_⟩
        · intro hnone
          rw [hexp] at hnone
          exact Option.noConfusion hnone
        · intro s2 hs2
          rw [hexp] at hs2
          injection hs2 with he
          rw [hido, he]
      | none =>
        rw [hid] at h
        dsimp only at h
        obtain ⟨hmono, hido⟩ := parseActionBody_spec h
        have hexp : explicitId (Json.obj fields) = none := hid
        refine ⟨Nat.le_trans (Nat.le_succ n) hmono, ?_, ?_⟩
        · intro hnone
          exact ⟨by rw [hido, htys], hmono⟩
        · intro s2 hs2
          rw [hexp] at hs2
          exact Option.noConfusion hs2
  | null =>
    unfold parseAction at h
    exact Except.noConfusion h
  | bool b =>
    unfold parseAction at h
    exact Except.noConfusion h
  | num k =>
    unfold parseAction at h
    exact Except.noConfusion h
  | str t =>
    unfold parseAction at h
    exact Except.noConfusion h
  | arr xs =>
    unfold parseAction at h
    exact Except.noConfusion h

/-- Every id in the list was freshly generated with an underscore-free tag at
a counter value at least `n`. -/
def GenBound (u : Nat → String) (n : Nat) (ids : List String) : Prop :=
  ∀ x ∈ ids, ∃ t m, Char.ofNat 95 ∉ t.data ∧ n ≤ m ∧ x = makeId u t m

/-- A generation bound weakens to any smaller counter. -/
theorem genBound_mono {u : Nat → String} {n n2 : Nat} {ids : List String}
    (h : GenBound u n2 ids) (hle : n ≤ n2) : GenBound u n ids := by
  intro x hx
  obtain ⟨t, m, h1, h2, h3⟩ := h x hx
  exact ⟨t, m, h1, Nat.le_trans hle h2, h3⟩

/-- Batch parsing: the freshly generated ids of a successfully parsed batch
all stem from counters at least the starting counter, are pairwise distinct
(for an injective uuid supply), and every action whose JSON object carried no
usable explicit id got a generated, type-tagged id. -/
theorem parseActionsList_spec {u : Nat → String} (hinj : Function.Injective u)
    (g : Option String) :
    ∀ (js : List Json) (n : Nat) (res : List Action × Nat),
      parseActionsList u g js n = .ok res →
      GenBound u n (genIdsOf js res.1)
      ∧ List.Pairwise (fun x y => x ≠ y) (genIdsOf js res.1)
      ∧ (∀ p ∈ js.zip res.1, explicitId p.1 = none →
          actionIdOf p.2 ≠ ""
          ∧ ∃ m, actionIdOf p.2 = makeId u (actionIdTag (typeStrOf p.1)) m) := by
  intro js
  induction js with
  | nil =>
    intro n res h
    simp only [parseActionsList] at h
    injection h with hp
    subst hp
    exact ⟨fun x hx => (nomatch hx), List.Pairwise.nil, fun p hp2 => (nomatch hp2)⟩
  | cons j rest ih =>
    intro n res h
    simp only [parseActionsList] at h
    cases hhead : parseAction u g j n with
    | error e =>
      rw [hhead] at h
      exact Except.noConfusion h
    | ok headRes =>
      rw [hhead] at h
      dsimp only at h
      cases htail : parseActionsList u g rest headRes.2 with
      | error e =>
        rw [htail] at h
        exact Except.noConfusion h
      | ok tailRes =>
        rw [htail] at h
        dsimp only at h
        injection h with hp
        subst hp
        obtain ⟨hmono, hgen, hexp⟩ := parseAction_spec hhead
        obtain ⟨ihB, ihP, ihZ⟩ := ih headRes.2 tailRes htail
        cases hid : explicitId j with
        | some s =>
          have hge : genIdsOf (j :: rest) (headRes.1 :: tailRes.1)
              = genIdsOf rest tailRes.1 := by
            simp [genIdsOf, hid]
          refine ⟨?_, ?_, ?_⟩
          · show GenBound u n (genIdsOf (j :: rest) (headRes.1 :: tailRes.1))
            rw [hge]
            exact genBound_mono ihB hmono
          · show List.Pairwise _ (genIdsOf (j :: rest) (headRes.1 :: tailRes.1))
            rw [hge]
            exact ihP
          · intro p hp2 hnone
            rw [show (j :: rest).zip ((headRes.1 :: tailRes.1, tailRes.2) :
                List Action × Nat).1 = (j, headRes.1) :: rest.zip tailRes.1
                from rfl] at hp2
            rcases List.mem_cons.mp hp2 with hpe | hpm
            · subst hpe
              dsimp only at hnone
              rw [hid] at hnone
              exact Option.noConfusion hnone
            · exact ihZ p hpm hnone
        | none =>
          obtain ⟨hideq, hn1⟩ := hgen hid
          have hge : genIdsOf (j :: rest) (headRes.1 :: tailRes.1)
              = actionIdOf headRes.1 :: genIdsOf rest tailRes.1 := by
            simp [genIdsOf, hid]
          refine ⟨?_, ?_, ?_⟩
          · show GenBound u n (genIdsOf (j :: rest) (headRes.1 :: tailRes.1))
            rw [hge]
            intro x hx
            rcases List.mem_cons.mp hx with hxe | hxm
            · subst hxe
              exact ⟨actionIdTag (typeStrOf j), n, actionIdTag_no_underscore _,
                Nat.le_refl n, hideq⟩
            · exact genBound_mono ihB hmono x hxm
          · show List.Pairwise _ (genIdsOf (j :: rest) (headRes.1 :: tailRes.1))
            rw [hge]
            refine List.Pairwise.cons ?_ ihP
            intro y hy hcontra
            obtain ⟨t, m, ht, hm, hy2⟩ := ihB y hy
            rw [hideq, hy2] at hcontra
            have hcounter := makeId_inj_counter hinj (actionIdTag_no_underscore _) ht hcontra
            omega
          · intro p hp2 hnone
            rw [show (j :: rest).zip ((headRes.1 :: tailRes.1, tailRes.2) :
                List Action × Nat).1 = (j, headRes.1) :: rest.zip tailRes.1
                from rfl] at hp2
            rcases List.mem_cons.mp hp2 with hpe | hpm
            · subst hpe
              refine ⟨?_, ⟨n, hideq⟩⟩
              show actionIdOf headRes.1 ≠ ""
              rw [hideq]
              exact makeId_ne_empty u _ n
            · exact ihZ p hpm hnone

/-- A concrete injective uuid supply for witnesses: n copies of the letter u. -/
def uuidSupply (n : Nat) : String :=
  String.mk (List.replicate n 'u')

/-- The witness uuid supply is injective. -/
theorem uuidSupply_inj : Function.Injective uuidSupply := by
  intro a b h
  have hd : List.replicate a 'u' = List.replicate b 'u' := congrArg String.data h
  have hl := congrArg List.length hd
  simpa using hl

/-- A decision entry carrying an explicit id "x". -/
def dupActJson : Json :=
  .obj [("type", .str "git.status"), ("id", .str "x")]

/-- Claim C9 counterexample: a batch of two actions both carrying the explicit
id "x" parses successfully, the parsed ids are "x" and "x", and they are not
pairwise distinct — explicit ids are kept verbatim and never checked against
the other ids of the batch, so ids are not unique within one decision batch. -/
theorem c9_counterexample :
    parseActionsList uuidSupply none [dupActJson, dupActJson] 0
      = .ok ([.GitStatus "x", .GitStatus "x"], 0)
    ∧ [Action.GitStatus "x", Action.GitStatus "x"].map actionIdOf = ["x", "x"]
    ∧ ¬ List.Pairwise (fun x y => x ≠ y) ["x", "x"] := by
  refine ⟨rfl, rfl, ?_⟩
  intro hp
  exact (List.pairwise_cons.mp hp).1 "x" (by simp) rfl

/-- Claim C9 (amended): on a successful batch parse with an injective uuid
supply, every action whose JSON object lacks a usable explicit id receives a
non-empty freshly generated id of the form tag-underscore-uuid with the tag
derived from its type (term for terminal.exec, read for fs.read), and those
generated ids are pairwise distinct within the batch; explicitly supplied ids
are kept verbatim, so distinctness of ALL ids of a batch does not hold in
general (see the counterexample). -/
theorem c9_fresh_ids (u : Nat → String) (g : Option String)
    (js : List Json) (n0 : Nat) (res : List Action × Nat)
    (hinj : Function.Injective u)
    (hok : parseActionsList u g js n0 = .ok res) :
    (∀ p ∈ js.zip res.1, explicitId p.1 = none →
        actionIdOf p.2 ≠ ""
        ∧ ∃ m, actionIdOf p.2 = makeId u (actionIdTag (typeStrOf p.1)) m)
    ∧ List.Pairwise (fun x y => x ≠ y) (genIdsOf js res.1)
    ∧ makeId u (actionIdTag "terminal.exec") n0 = "term" ++ "_" ++ u n0
    ∧ makeId u (actionIdTag "fs.read") n0 = "read" ++ "_" ++ u n0 := by
  obtain ⟨hB, hP, hZ⟩ := parseActionsList_spec hinj g js n0 res hok
  exact ⟨hZ, hP, rfl, rfl⟩

/-- A terminal.exec decision entry without an explicit id. -/
def c9Json1 : Json :=
  .obj [("type", .str "terminal.exec"), ("cmd", .str "ls")]

/-- An fs.read decision entry without an explicit id. -/
def c9Json2 : Json :=
  .obj [("type", .str "fs.read"), ("path", .str "a.txt")]

/-- Claim C9 witness: the amended theorem applied to a concrete two-action
batch without explicit ids, parsed with the concrete injective uuid supply
from counter 0: the generated ids are "term_" and "read_u". -/
theorem c9_witness :
    Function.Injective uuidSupply
    ∧ parseActionsList uuidSupply none [c9Json1, c9Json2] 0
        = .ok ([Action.TerminalExec "term_" "ls" none,
                Action.FsRead "read_u" "a.txt"], 2)
    ∧ ((∀ p ∈ [c9Json1, c9Json2].zip ([Action.TerminalExec "term_" "ls" none,
            Action.FsRead "read_u" "a.txt"], 2).1, explicitId p.1 = none →
          actionIdOf p.2 ≠ ""
          ∧ ∃ m, actionIdOf p.2
              = makeId uuidSupply (actionIdTag (typeStrOf p.1)) m)
        ∧ List.Pairwise (fun x y => x ≠ y)
            (genIdsOf [c9Json1, c9Json2]
              ([Action.TerminalExec "term_" "ls" none,
                Action.FsRead "read_u" "a.txt"], 2).1)
        ∧ makeId uuidSupply (actionIdTag "terminal.exec") 0
            = "term" ++ "_" ++ uuidSupply 0
        ∧ makeId uuidSupply (actionIdTag "fs.read") 0
            = "read" ++ "_" ++ uuidSupply 0) := by
  refine ⟨uuidSupply_inj, rfl, ?_⟩
  exact c9_fresh_ids uuidSupply none [c9Json1, c9Json2] 0
    ([Action.TerminalExec "term_" "ls" none, Action.FsRead "read_u" "a.txt"], 2)
    uuidSupply_inj rfl

end TauriHands
